import Mathlib

/-
  Verification development for the mp3-file-analysis repository.

  The byte-level parsing core is embedded shallowly: a JS `Buffer` becomes a
  `List Nat` of byte values, out-of-range reads behave like the source's
  `undefined` reads (every comparison against a byte value fails, every bitwise
  operation treats the value as 0, which coincides with `List.getD _ _ 0` at all
  call sites), and thrown exceptions become `Except` errors.  JS numbers at the
  relevant call sites are non-negative integers below 2^31, where JS bitwise
  operators agree with the corresponding `Nat` operations, and `Math.floor` of a
  non-negative quotient agrees with `Nat` division.
-/

namespace Mp3

/-- Byte access, JS `buffer[i]`. Out-of-range reads yield a value that fails the
sync/magic comparisons, as `undefined` does at the source's call sites. -/
def bget (B : List Nat) (i : Nat) : Nat := B.getD i 0

/-- `Buffer.readUInt32BE(p)`; all call sites in the source are guarded by
`p + 4 <= buffer.length`. -/
def readUInt32BE (B : List Nat) (p : Nat) : Nat :=
  bget B p * 16777216 + bget B (p + 1) * 65536 + bget B (p + 2) * 256 + bget B (p + 3)

/- Constants from `mp3-frame-constants` / `consts`. -/

def SYNC_BYTE : Nat := 0xff

def SYNC_MASK : Nat := 0xe0

def MPEG1_VERSION : Nat := 0x03

def LAYER3 : Nat := 0x01

def ID3V2_HEADER_SIZE : Nat := 10

def FRAME_HEADER_SIZE : Nat := 4

def MIN_FRAME_SIZE : Nat := 4

def SIDE_INFO_MONO : Nat := 17

def SIDE_INFO_STEREO : Nat := 32

def CHANNEL_MODE_MONO : Nat := 0x03

def FRAME_LENGTH_MULTIPLIER : Nat := 144

def MPEG1_LAYER3_BITRATES : List Nat :=
  [0, 32, 40, 48, 56, 64, 80, 96, 112, 128, 160, 192, 224, 256, 320, 0]

def MPEG1_SAMPLE_RATES : List Nat := [44100, 48000, 32000, 0]

/-- `Mp3Parser.isFrameSync` (mp3-parser.ts): `buffer[position] === SYNC_BYTE &&
(buffer[position+1] & SYNC_MASK) === SYNC_MASK`. -/
def isFrameSync (B : List Nat) (p : Nat) : Bool :=
  bget B p == SYNC_BYTE && (bget B (p + 1) &&& SYNC_MASK) == SYNC_MASK

/-- `(header >> 12) & 0x0f` — the 4-bit bitrate index field of a 32-bit header. -/
def bitrateIndexOf (header : Nat) : Nat := (header >>> 12) &&& 0x0f

/-- `(header >> 10) & 0x03` — the 2-bit sample-rate index field. -/
def sampleRateIndexOf (header : Nat) : Nat := (header >>> 10) &&& 0x03

/-- `(header >> 9) & 0x01` — the padding bit. -/
def paddingOf (header : Nat) : Nat := (header >>> 9) &&& 0x01

/-- Body of `Mpeg1Layer3ParserService.calculateFrameLength` after its 4-byte
guard (part_006 lines 195-215): table lookups, the zero sentinel for an invalid
bitrate/sample-rate pair, and the frame-length formula
`floor(144 * bitrate * 1000 / sampleRate) + padding`. -/
def calcCore (header : Nat) : Nat :=
  let bitrate := MPEG1_LAYER3_BITRATES.getD (bitrateIndexOf header) 0
  let sampleRate := MPEG1_SAMPLE_RATES.getD (sampleRateIndexOf header) 0
  if bitrate = 0 ∨ sampleRate = 0 then 0
  else FRAME_LENGTH_MULTIPLIER * bitrate * 1000 / sampleRate + paddingOf header

/-- `Mpeg1Layer3ParserService.calculateFrameLength` (part_006 lines 190-216):
returns 0 when fewer than 4 header bytes are supplied, never throws. -/
def calculateFrameLength (headerBytes : List Nat) : Nat :=
  if headerBytes.length < FRAME_HEADER_SIZE then 0
  else calcCore (readUInt32BE headerBytes 0)

/-- `Mpeg1Layer3ParserService.isFormatSpecificFrame` (part_006 lines 143-182):
bounds guard, MPEG-1 version and Layer 3 checks on byte `p+1`, then the
reserved bitrate-index / sample-rate-index / emphasis rejections.  The source's
`try/catch` around `readUInt32BE` cannot fire under the guard. -/
def isFormatSpecificFrame (B : List Nat) (p : Nat) : Bool :=
  if p + FRAME_HEADER_SIZE > B.length then false
  else
    let version := (bget B (p + 1) >>> 3) &&& 0x03
    let layer := (bget B (p + 1) >>> 1) &&& 0x03
    if version ≠ MPEG1_VERSION then false
    else if layer ≠ LAYER3 then false
    else
      let header := readUInt32BE B p
      let emphasis := bget B (p + 3) &&& 0x03
      if bitrateIndexOf header = 0 ∨ bitrateIndexOf header = 15 then false
      else if sampleRateIndexOf header = 3 then false
      else if emphasis = 2 then false
      else true

/-- The 3-byte "ID3" magic test of `skipId3v2Tag` (`buffer[0..2] === 0x49 0x44 0x33`). -/
def hasId3Magic (B : List Nat) : Bool :=
  bget B 0 == 0x49 && bget B 1 == 0x44 && bget B 2 == 0x33

/-- `Mp3Parser.skipId3v2Tag` (mp3-parser.ts lines 182-212); also stands for the
repository's `Mp3Parser.findId3v2TagEnd`, whose defining file is not in the
sources but whose behaviour the spec (§4.2 Metadata-Tag Skipper) describes
identically to this function.  The size field is decoded exactly as the source
does: `(b6 << 21) | (b7 << 14) | (b8 << 7) | b9` on full byte values. -/
def skipId3v2Tag (B : List Nat) : Nat :=
  if B.length < ID3V2_HEADER_SIZE then 0
  else if hasId3Magic B then
    let tagSize := (bget B 6 <<< 21) ||| (bget B 7 <<< 14) ||| (bget B 8 <<< 7) ||| bget B 9
    let totalSize := ID3V2_HEADER_SIZE + tagSize
    if totalSize ≤ B.length then totalSize else 0
  else 0

/-- Modelled from the spec: the claim's "28-bit synchsafe (7-bits-per-byte)
big-endian size decoded from bytes 6-9" (spec §4.2 and the glossary entry for
synchsafe integers, where only 7 of each 8 bits carry value).  This is the
spec-side decode, to be compared with the source's `tagSize` computation. -/
def specSynchsafeSize (B : List Nat) : Nat :=
  ((bget B 6 &&& 0x7f) <<< 21) ||| ((bget B 7 &&& 0x7f) <<< 14) |||
    ((bget B 8 &&& 0x7f) <<< 7) ||| (bget B 9 &&& 0x7f)

/-- `Mp3Parser.isHeaderFrame` (mp3-parser.ts lines 221-266): Xing/Info/VBRI
metadata-frame detection at the channel-mode-dependent side-information offset. -/
def isHeaderFrame (B : List Nat) (p : Nat) : Bool :=
  if p + 40 > B.length then false
  else
    let channelMode := (bget B (p + 3) >>> 6) &&& 0x03
    let sideInfoLength :=
      if channelMode == CHANNEL_MODE_MONO then SIDE_INFO_MONO else SIDE_INFO_STEREO
    let headerStart := p + FRAME_HEADER_SIZE + sideInfoLength
    if headerStart + FRAME_HEADER_SIZE > B.length then false
    else if (bget B headerStart == 0x58 && bget B (headerStart + 1) == 0x69 &&
             bget B (headerStart + 2) == 0x6e && bget B (headerStart + 3) == 0x67) ||
            (bget B headerStart == 0x49 && bget B (headerStart + 1) == 0x6e &&
             bget B (headerStart + 2) == 0x66 && bget B (headerStart + 3) == 0x6f) then
      true
    else if bget B headerStart == 0x56 && bget B (headerStart + 1) == 0x42 &&
            bget B (headerStart + 2) == 0x52 && bget B (headerStart + 3) == 0x49 then
      true
    else false

/-- `Mpeg1Layer3ParserService.parseFrameHeader` (part_006 lines 71-98): the
throwing variant; `none` stands for the thrown error (insufficient data, or an
invalid bitrate/sample-rate pair). -/
def parseFrameHeaderE (B : List Nat) (p : Nat) : Option Nat :=
  if p + FRAME_HEADER_SIZE > B.length then none
  else
    let header := readUInt32BE B p
    let bitrate := MPEG1_LAYER3_BITRATES.getD (bitrateIndexOf header) 0
    let sampleRate := MPEG1_SAMPLE_RATES.getD (sampleRateIndexOf header) 0
    if bitrate = 0 ∨ sampleRate = 0 then none
    else some (FRAME_LENGTH_MULTIPLIER * bitrate * 1000 / sampleRate + paddingOf header)

deriving instance DecidableEq for Except

/-- Error kinds thrown by the parsing core (mp3-parser.ts messages). -/
inductive Mp3Err where
  | emptyBuffer
  | fileTooSmall
  | corruptedFrameHeader
  | truncatedFrame
  | frameAlignment
  | corruptedFrameAt (pos : Nat)
  | noValidFrames
deriving DecidableEq

/-- The scan loop of `Mp3Parser.countFrames` (mp3-parser.ts lines 132-150):
sync test, format test, `parseFrameHeader` under `try` (a throw falls through
to `position++`), the fit check, the metadata-frame exclusion, and the
`position += frameLength` jump. -/
def countLoop (B : List Nat) (p : Nat) (cnt : Nat) : Nat :=
  if hp : p < B.length - MIN_FRAME_SIZE then
    if isFrameSync B p then
      if isFormatSpecificFrame B p then
        match parseFrameHeaderE B p with
        | some fl =>
          if hfit : 0 < fl ∧ p + fl ≤ B.length then
            countLoop B (p + fl) (if isHeaderFrame B p then cnt else cnt + 1)
          else countLoop B (p + 1) cnt
        | none => countLoop B (p + 1) cnt
      else countLoop B (p + 1) cnt
    else countLoop B (p + 1) cnt
  else cnt
termination_by B.length - p
decreasing_by
  · omega
  · omega
  · omega
  · omega

/-- Instrumented variant of `countLoop` that records the start offsets of the
frames the loop counts (used only to state where the counted frames begin);
it follows the exact branch structure of `countLoop`. -/
def countLoopPositions (B : List Nat) (p : Nat) : List Nat :=
  if hp : p < B.length - MIN_FRAME_SIZE then
    if isFrameSync B p then
      if isFormatSpecificFrame B p then
        match parseFrameHeaderE B p with
        | some fl =>
          if hfit : 0 < fl ∧ p + fl ≤ B.length then
            if isHeaderFrame B p then countLoopPositions B (p + fl)
            else p :: countLoopPositions B (p + fl)
          else countLoopPositions B (p + 1)
        | none => countLoopPositions B (p + 1)
      else countLoopPositions B (p + 1)
    else countLoopPositions B (p + 1)
  else []
termination_by B.length - p
decreasing_by
  · omega
  · omega
  · omega
  · omega
  · omega

/-- `Mp3Parser.countFrames` (mp3-parser.ts lines 124-159). -/
def countFrames (B : List Nat) : Except Mp3Err Nat :=
  if B.length = 0 then .error .emptyBuffer
  else
    let c := countLoop B (skipId3v2Tag B) 0
    if c = 0 then .error .noValidFrames else .ok c

/-- The alignment scan of `Mp3Parser.validate` (mp3-parser.ts lines 69-80):
a sync search at offsets 0..4 past the expected next-frame position, stopping
at the end of the buffer. -/
def alignmentFound (B : List Nat) (nextPos : Nat) : Bool :=
  (List.range 5).any fun off => decide (nextPos + off < B.length) && isFrameSync B (nextPos + off)

/-- The scan loop of `Mp3Parser.validate` (mp3-parser.ts lines 36-107),
returning the number of validated frames or the first failure.  The `catch`
that wraps a non-`BadRequestException` throw from `parseFrameHeader` into the
"corrupted frame at position" failure is the `none` branch. -/
def validateLoop (B : List Nat) (p : Nat) (cnt : Nat) : Except Mp3Err Nat :=
  if hp : p < B.length - MIN_FRAME_SIZE ∧ cnt < 10 then
    if isFrameSync B p then
      if isFormatSpecificFrame B p then
        match parseFrameHeaderE B p with
        | none => .error (.corruptedFrameAt p)
        | some fl =>
          if hfl : fl = 0 then .error .corruptedFrameHeader
          else if htr : B.length < p + fl then .error .truncatedFrame
          else
            let nextPos := p + fl
            if nextPos < B.length ∧ isHeaderFrame B p = false then
              if alignmentFound B nextPos = false ∧ 0 < cnt then .error .frameAlignment
              else validateLoop B (p + fl) (cnt + 1)
            else validateLoop B (p + fl) (cnt + 1)
      else validateLoop B (p + 1) cnt
    else validateLoop B (p + 1) cnt
  else .ok cnt
termination_by B.length - p
decreasing_by
  · omega
  · omega
  · omega
  · omega

/-- `Mp3Parser.validate` (mp3-parser.ts lines 16-116). -/
def validate (B : List Nat) : Except Mp3Err Unit :=
  if B.length = 0 then .error .emptyBuffer
  else if B.length < MIN_FRAME_SIZE then .error .fileTooSmall
  else
    match validateLoop B (skipId3v2Tag B) 0 with
    | .error e => .error e
    | .ok cnt => if cnt = 0 then .error .noValidFrames else .ok ()

/-- `Mp3FrameIterator.findNextFrame` (part_008 lines 118-168), as a function of
the buffered bytes and the cursor: returns the emitted (start, length) pair if
any, together with the new cursor.  The "frame extends beyond current buffer"
branch returns no frame and leaves the cursor at the candidate. -/
def findNextFrameAux (B : List Nat) (p : Nat) : Option (Nat × Nat) × Nat :=
  if hp : p < B.length - MIN_FRAME_SIZE then
    if ¬ isFrameSync B p then findNextFrameAux B (p + 1)
    else if ¬ isFormatSpecificFrame B p then findNextFrameAux B (p + 1)
    else
      let fl := calculateFrameLength ((B.drop p).take FRAME_HEADER_SIZE)
      if fl = 0 then findNextFrameAux B (p + 1)
      else if p + fl > B.length then (none, p)
      else (some (p, fl), p + fl)
  else (none, p)
termination_by B.length - p
decreasing_by
  · omega
  · omega
  · omega

/-- The ID3v2 part of `Mp3FrameIterator.processBuffer` (part_008 lines 74-85),
run at each data arrival: append the chunk, then, if the tag has not yet been
consulted and at least 10 bytes are buffered, consult `findId3v2TagEnd` once,
discarding the tag prefix when it is complete.  Returns the new buffer, cursor
and tag-consulted flag. -/
def processArrival (B : List Nat) (p : Nat) (sk : Bool) (c : List Nat) :
    List Nat × Nat × Bool :=
  if sk = false ∧ ID3V2_HEADER_SIZE ≤ (B ++ c).length then
    if 0 < skipId3v2Tag (B ++ c) then
      ((B ++ c).drop (skipId3v2Tag (B ++ c)), 0, true)
    else (B ++ c, p, true)
  else (B ++ c, p, sk)

/-- The frame walk of a whole chunked stream through `Mp3FrameIterator`:
repeated `next()` calls (`findNextFrame` scans, part_008 lines 118-168) with
the next chunk delivered (`onData` + `processBuffer`, part_008 lines 38-41 and
74-116) whenever the scan stalls, counting each yielded frame that is not a
metadata frame.  The consumer loop and its `isHeaderFrame` exclusion are
modelled from the spec (§4.6 countFrames walks the iterator to exhaustion,
skipping summary frames), since the file defining the iterator-based
`countFrames` is not among the sources.  The buffer-trimming optimization of
`processBuffer` (part_008 lines 108-115) only discards bytes below
`currentPosition - windowSize`, which no later scan reads; it renumbers window
offsets but does not change which frames are yielded, and is omitted here. -/
def runCount (B : List Nat) (p : Nat) (sk : Bool) (chunks : List (List Nat))
    (acc : Nat) : Nat :=
  if hp : p < B.length - MIN_FRAME_SIZE then
    if hs : ¬ isFrameSync B p then runCount B (p + 1) sk chunks acc
    else if hf : ¬ isFormatSpecificFrame B p then runCount B (p + 1) sk chunks acc
    else if hfl : calculateFrameLength ((B.drop p).take FRAME_HEADER_SIZE) = 0 then
      runCount B (p + 1) sk chunks acc
    else if hfit : p + calculateFrameLength ((B.drop p).take FRAME_HEADER_SIZE) > B.length then
      match chunks with
      | [] => acc
      | c :: rest =>
        runCount (processArrival B p sk c).1 (processArrival B p sk c).2.1
          (processArrival B p sk c).2.2 rest acc
    else
      runCount B (p + calculateFrameLength ((B.drop p).take FRAME_HEADER_SIZE)) sk chunks
        (if isHeaderFrame B p then acc else acc + 1)
  else
    match chunks with
    | [] => acc
    | c :: rest =>
      runCount (processArrival B p sk c).1 (processArrival B p sk c).2.1
        (processArrival B p sk c).2.2 rest acc
termination_by (chunks.length, B.length - p)

/-- Counting frames over a chunked stream delivered to the iterator, wrapped
with the zero-count failure.  The wrapper is modelled from the spec (§4.6:
"Fails if the final count is zero. Returns the count otherwise."). -/
def iterCountFrames (chunks : List (List Nat)) : Except Mp3Err Nat :=
  if runCount [] 0 false chunks 0 = 0 then .error .noValidFrames
  else .ok (runCount [] 0 false chunks 0)

/-- Reference single-buffer scan: the (start, length) pairs of all frames the
iterator yields when the whole buffer is available, in order.  Its branch
structure is that of `findNextFrame`; it is the specification-side yardstick
against which the chunked runs are compared. -/
def scanFrames (B : List Nat) (p : Nat) : List (Nat × Nat) :=
  if hp : p < B.length - MIN_FRAME_SIZE then
    if hs : ¬ isFrameSync B p then scanFrames B (p + 1)
    else if hf : ¬ isFormatSpecificFrame B p then scanFrames B (p + 1)
    else
      let fl := calculateFrameLength ((B.drop p).take FRAME_HEADER_SIZE)
      if hfl : fl = 0 then scanFrames B (p + 1)
      else if hfit : p + fl > B.length then []
      else (p, fl) :: scanFrames B (p + fl)
  else []
termination_by B.length - p
decreasing_by
  · omega
  · omega
  · omega
  · omega

/-- The audio-frame count of the reference scan (metadata frames excluded). -/
def countScan (B : List Nat) (p : Nat) : Nat :=
  ((scanFrames B p).filter fun f => ! isHeaderFrame B f.1).length

/-- `Mp3FrameIterator` session state (part_008 lines 11-18), restricted to the
fields that the synchronous part of `next()` consults. -/
structure IterState where
  buffer : List Nat
  pos : Nat
  isEnded : Bool
  pending : Bool
  streamError : Bool
deriving DecidableEq

/-- The observable outcome of one synchronous entry into `next()`. -/
inductive NextOutcome where
  | errorThrown
  | frame (fp fl : Nat)
  | eom
  | suspended
  | concurrentReject
deriving DecidableEq

/-- The synchronous part of `Mp3FrameIterator.next` (part_008 lines 195-231):
rethrow a recorded stream error; otherwise try `findNextFrame` (which moves the
cursor); return an available frame immediately; resolve with null when the
source is exhausted; reject when another `next()` is already pending (the
promise executor returns before any state is touched); otherwise register the
pending continuation and suspend.  JS runs this code atomically, so the model
is a pure state transformer. -/
def nextCall (s : IterState) : NextOutcome × IterState :=
  if s.streamError then (.errorThrown, s)
  else
    match findNextFrameAux s.buffer s.pos with
    | (some (fp, fl), q) => (.frame fp fl, { s with pos := q })
    | (none, q) =>
      if s.isEnded then (.eom, { s with pos := q })
      else if s.pending then (.concurrentReject, { s with pos := q })
      else (.suspended, { s with pos := q, pending := true })

/-- A valid audio frame of declared length `len` starting at `p` in `B`:
sync pattern, MPEG-1 Layer 3 header fields, declared length `len` fitting in
the buffer, and not a metadata-summary frame. -/
def AudioFrameAt (B : List Nat) (p len : Nat) : Prop :=
  isFrameSync B p = true ∧ isFormatSpecificFrame B p = true ∧
    parseFrameHeaderE B p = some len ∧ p + len ≤ B.length ∧
    isHeaderFrame B p = false

/-- A valid metadata-summary frame of declared length `len` starting at `p`:
as `AudioFrameAt`, except that `isHeaderFrame` recognises it. -/
def SummaryFrameAt (B : List Nat) (p len : Nat) : Prop :=
  isFrameSync B p = true ∧ isFormatSpecificFrame B p = true ∧
    parseFrameHeaderE B p = some len ∧ p + len ≤ B.length ∧
    isHeaderFrame B p = true

/-- `FrameSeq B p lens`: from offset `p` to the end of `B`, the buffer is the
contiguous concatenation of valid audio frames with declared lengths `lens`,
each frame starting exactly where the previous one ends and the last one
ending exactly at the end of the buffer. -/
inductive FrameSeq : List Nat → Nat → List Nat → Prop where
  | nil (B : List Nat) (p : Nat) (h : p = B.length) : FrameSeq B p []
  | cons (B : List Nat) (p len : Nat) (lens : List Nat)
      (hf : AudioFrameAt B p len) (hrest : FrameSeq B (p + len) lens) :
      FrameSeq B p (len :: lens)

/-- MPEG version tags (`Mp3Version` enum, types.ts), with their string values. -/
inductive Mp3Version where
  | MPEG1
  | MPEG2
  | MPEG25
  | Unknown
deriving DecidableEq, Fintype

/-- MPEG layer tags (`Mp3Layer` enum, types.ts), with their string values. -/
inductive Mp3Layer where
  | Layer1
  | Layer2
  | Layer3
  | Unknown
deriving DecidableEq, Fintype

/-- The string value of each `Mp3Version` enum member. -/
def Mp3Version.label : Mp3Version → String
  | .MPEG1 => "MPEG-1"
  | .MPEG2 => "MPEG-2"
  | .MPEG25 => "MPEG-2.5"
  | .Unknown => "Unknown"

/-- The string value of each `Mp3Layer` enum member. -/
def Mp3Layer.label : Mp3Layer → String
  | .Layer1 => "Layer 1"
  | .Layer2 => "Layer 2"
  | .Layer3 => "Layer 3"
  | .Unknown => "Unknown"

/-- `VERSION_MAP` (part_009 lines 9-14) composed with `getVersionName`. -/
def versionName : Nat → Mp3Version
  | 0x00 => .MPEG25
  | 0x01 => .Unknown
  | 0x02 => .MPEG2
  | 0x03 => .MPEG1
  | _ => .Unknown

/-- `LAYER_MAP` (part_009 lines 19-24) composed with `getLayerName`. -/
def layerName : Nat → Mp3Layer
  | 0x00 => .Unknown
  | 0x01 => .Layer3
  | 0x02 => .Layer2
  | 0x03 => .Layer1
  | _ => .Unknown

/-- `Mp3TypeInfo` (types.ts). -/
structure Mp3TypeInfo where
  version : Mp3Version
  layer : Mp3Layer
  description : String
deriving DecidableEq

/-- The sync-scan loop of `Mp3TypeDetector.detectTypeFromBuffer`
(part_009 lines 114-139); the source inlines the very expression of
`isFrameSync` as its sync test. -/
def detectLoop (B : List Nat) (p : Nat) : Mp3TypeInfo :=
  if hp : p < B.length - FRAME_HEADER_SIZE then
    if isFrameSync B p then
      let v := versionName ((bget B (p + 1) >>> 3) &&& 0x03)
      let l := layerName ((bget B (p + 1) >>> 1) &&& 0x03)
      ⟨v, l, v.label ++ " " ++ l.label⟩
    else detectLoop B (p + 1)
  else ⟨.Unknown, .Unknown, "No valid MP3 frame found"⟩
termination_by B.length - p
decreasing_by
  · omega

/-- `Mp3TypeDetector.detectTypeFromBuffer` (part_009 lines 101-140).  The
initial offset comes from `findId3v2TagEnd`, which `skipId3v2Tag` stands for
(see its doc comment). -/
def detectTypeFromBuffer (B : List Nat) : Mp3TypeInfo :=
  if B.length < 4 then ⟨.Unknown, .Unknown, "Invalid file: insufficient data"⟩
  else detectLoop B (skipId3v2Tag B)

/-- `ParserRegistryService.getKey` (parser-registry.service.ts lines 49-54):
the template string over the enum string values. -/
def registryKey (v : Mp3Version) (l : Mp3Layer) : String :=
  v.label ++ ":" ++ l.label

/-- The backing `Map<string, IMp3Parser>`: an insertion-ordered association
list; parser instances are identified by a numeric id. -/
abbrev Registry : Type := List (String × Nat)

/-- `Map.get(key)` composed with the `|| null` of `getParser`. -/
def mapGet (r : Registry) (k : String) : Option Nat :=
  (List.find? (fun e => e.1 == k) r).map (·.2)

/-- `Map.has(key)`. -/
def mapHas (r : Registry) (k : String) : Bool :=
  (List.find? (fun e => e.1 == k) r).isSome

/-- `Map.set(key, value)`: overwrite when present, append otherwise. -/
def mapSet (r : Registry) (k : String) (v : Nat) : Registry :=
  if mapHas r k then List.map (fun e => if e.1 == k then (k, v) else e) r
  else r ++ [(k, v)]

/-- The duplicate-registration failure (`ParserAlreadyRegisteredError`). -/
inductive RegErr where
  | parserAlreadyRegistered
deriving DecidableEq

/-- `ParserRegistryService.getParser` (lines 20-23). -/
def getParser (r : Registry) (v : Mp3Version) (l : Mp3Layer) : Option Nat :=
  mapGet r (registryKey v l)

/-- `ParserRegistryService.registerParser` (lines 32-44): throws on a duplicate
key before any mutation, stores the parser otherwise. -/
def registerParser (r : Registry) (v : Mp3Version) (l : Mp3Layer) (parser : Nat) :
    Except RegErr Registry :=
  if mapHas r (registryKey v l) then .error .parserAlreadyRegistered
  else .ok (mapSet r (registryKey v l) parser)

/- Concrete buffers used by the concrete-scenario claims. -/

/-- The 4-byte MPEG-1 Layer 3 header `FF FB 90 00` (128 kbps, 44100 Hz,
no padding): declared frame length `floor(144*128*1000/44100) = 417`. -/
def hdr90 : List Nat := [0xff, 0xfb, 0x90, 0x00]

/-- The spec's concrete scenario frame: the header followed by a 417-byte
zero body (421 bytes in all, declared length 417). -/
def scenarioFrame : List Nat := hdr90 ++ List.replicate 417 0

/-- The spec's concrete 842-byte scenario input: two scenario frames
back-to-back. -/
def scenarioBuffer : List Nat := scenarioFrame ++ scenarioFrame

/-- A length-compliant audio frame: declared length 417 equals its byte
length. -/
def compliantFrame : List Nat := hdr90 ++ List.replicate 413 0

/-- A length-compliant Xing metadata-summary frame: stereo channel mode, so the
"Xing" magic sits at offset 4 + 32 = 36. -/
def xingFrame : List Nat :=
  hdr90 ++ List.replicate 32 0 ++ [0x58, 0x69, 0x6e, 0x67] ++ List.replicate 377 0

/-- Two compliant audio frames back-to-back (834 bytes). -/
def twoFrameBuffer : List Nat := compliantFrame ++ compliantFrame

/-- A Xing summary frame followed by one compliant audio frame (834 bytes). -/
def xingThenAudio : List Nat := xingFrame ++ compliantFrame

/-- A 10-byte ID3v2 header declaring a 421-byte tag (synchsafe size bytes
`00 00 03 25`). -/
def id3Header421 : List Nat := [0x49, 0x44, 0x33, 0x03, 0x00, 0x00, 0x00, 0x00, 0x03, 0x25]

/-- An ID3v2 tag whose body is a frame-shaped 421-byte block, followed by one
real frame (852 bytes in all). -/
def id3ChunkBuffer : List Nat := id3Header421 ++ scenarioFrame ++ scenarioFrame

/- Computational mirrors: the scan loops are defined by well-founded recursion,
which the kernel does not reduce, so each loop that must be evaluated on a
concrete buffer gets a structurally recursive mirror over an explicit
iteration-count bound (each iteration advances the cursor by at least one byte,
so `B.length - p` iterations always suffice), with a proved equivalence. -/

def countLoopF : Nat → List Nat → Nat → Nat → Nat
  | 0, _, _, cnt => cnt
  | fuel + 1, B, p, cnt =>
    if p < B.length - MIN_FRAME_SIZE then
      if isFrameSync B p then
        if isFormatSpecificFrame B p then
          match parseFrameHeaderE B p with
          | some fl =>
            if 0 < fl ∧ p + fl ≤ B.length then
              countLoopF fuel B (p + fl) (if isHeaderFrame B p then cnt else cnt + 1)
            else countLoopF fuel B (p + 1) cnt
          | none => countLoopF fuel B (p + 1) cnt
        else countLoopF fuel B (p + 1) cnt
      else countLoopF fuel B (p + 1) cnt
    else cnt

def countLoopPositionsF : Nat → List Nat → Nat → List Nat
  | 0, _, _ => []
  | fuel + 1, B, p =>
    if p < B.length - MIN_FRAME_SIZE then
      if isFrameSync B p then
        if isFormatSpecificFrame B p then
          match parseFrameHeaderE B p with
          | some fl =>
            if 0 < fl ∧ p + fl ≤ B.length then
              if isHeaderFrame B p then countLoopPositionsF fuel B (p + fl)
              else p :: countLoopPositionsF fuel B (p + fl)
            else countLoopPositionsF fuel B (p + 1)
          | none => countLoopPositionsF fuel B (p + 1)
        else countLoopPositionsF fuel B (p + 1)
      else countLoopPositionsF fuel B (p + 1)
    else []

def validateLoopF : Nat → List Nat → Nat → Nat → Except Mp3Err Nat
  | 0, _, _, cnt => .ok cnt
  | fuel + 1, B, p, cnt =>
    if p < B.length - MIN_FRAME_SIZE ∧ cnt < 10 then
      if isFrameSync B p then
        if isFormatSpecificFrame B p then
          match parseFrameHeaderE B p with
          | none => .error (.corruptedFrameAt p)
          | some fl =>
            if fl = 0 then .error .corruptedFrameHeader
            else if B.length < p + fl then .error .truncatedFrame
            else
              let nextPos := p + fl
              if nextPos < B.length ∧ isHeaderFrame B p = false then
                if alignmentFound B nextPos = false ∧ 0 < cnt then .error .frameAlignment
                else validateLoopF fuel B (p + fl) (cnt + 1)
              else validateLoopF fuel B (p + fl) (cnt + 1)
        else validateLoopF fuel B (p + 1) cnt
      else validateLoopF fuel B (p + 1) cnt
    else .ok cnt

/-- The success branch of the detector's scan: version and layer decoded
directly from the header bits at `p`, with the label string (part_009
lines 120-130).  No frame-length computation is involved. -/
def detectDecode (B : List Nat) (p : Nat) : Mp3TypeInfo :=
  let v := versionName ((bget B (p + 1) >>> 3) &&& 0x03)
  let l := layerName ((bget B (p + 1) >>> 1) &&& 0x03)
  ⟨v, l, v.label ++ " " ++ l.label⟩

def findNextFrameAuxF : Nat → List Nat → Nat → Option (Nat × Nat) × Nat
  | 0, _, p => (none, p)
  | fuel + 1, B, p =>
    if p < B.length - MIN_FRAME_SIZE then
      if ¬ isFrameSync B p then findNextFrameAuxF fuel B (p + 1)
      else if ¬ isFormatSpecificFrame B p then findNextFrameAuxF fuel B (p + 1)
      else
        let fl := calculateFrameLength ((B.drop p).take FRAME_HEADER_SIZE)
        if fl = 0 then findNextFrameAuxF fuel B (p + 1)
        else if p + fl > B.length then (none, p)
        else (some (p, fl), p + fl)
    else (none, p)

/-- Computational mirror of the drain phase of `runCount`: scan and count
frames until the scan stalls, returning the stall position and the count. -/
def runScanF : Nat → List Nat → Nat → Nat → Nat × Nat
  | 0, _, p, acc => (p, acc)
  | fuel + 1, B, p, acc =>
    if p < B.length - MIN_FRAME_SIZE then
      if ¬ isFrameSync B p then runScanF fuel B (p + 1) acc
      else if ¬ isFormatSpecificFrame B p then runScanF fuel B (p + 1) acc
      else
        if calculateFrameLength ((B.drop p).take FRAME_HEADER_SIZE) = 0 then
          runScanF fuel B (p + 1) acc
        else if p + calculateFrameLength ((B.drop p).take FRAME_HEADER_SIZE) > B.length then
          (p, acc)
        else
          runScanF fuel B (p + calculateFrameLength ((B.drop p).take FRAME_HEADER_SIZE))
            (if isHeaderFrame B p then acc else acc + 1)
    else (p, acc)

/-- Computational mirror of `runCount`: structural on the chunk list, with the
drain phase run on a sufficient iteration bound. -/
def runCountF : List (List Nat) → List Nat → Nat → Bool → Nat → Nat
  | [], B, p, _, acc => (runScanF B.length B p acc).2
  | c :: rest, B, p, sk, acc =>
    runCountF rest (processArrival B (runScanF B.length B p acc).1 sk c).1
      (processArrival B (runScanF B.length B p acc).1 sk c).2.1
      (processArrival B (runScanF B.length B p acc).1 sk c).2.2
      (runScanF B.length B p acc).2

end Mp3

namespace Mp3

/- Helper lemmas: byte-access locality under buffer extension. -/

theorem bget_append_left {A E : List Nat} {i : Nat} (h : i < A.length) :
    bget (A ++ E) i = bget A i := by
  simp [bget, List.getD_eq_getElem?_getD, List.getElem?_append, h]

theorem bget_slice {B : List Nat} {p n k : Nat} (h : k < n) :
    bget ((B.drop p).take n) k = bget B (p + k) := by
  simp [bget, List.getD_eq_getElem?_getD, List.getElem?_take, h, List.getElem?_drop]

theorem readUInt32BE_slice {B : List Nat} {p : Nat} :
    readUInt32BE ((B.drop p).take FRAME_HEADER_SIZE) 0 = readUInt32BE B p := by
  unfold readUInt32BE
  rw [bget_slice (by decide), bget_slice (by decide), bget_slice (by decide),
    bget_slice (by decide)]
  simp

theorem isFrameSync_append {A E : List Nat} {p : Nat} (h : p + 2 ≤ A.length) :
    isFrameSync (A ++ E) p = isFrameSync A p := by
  unfold isFrameSync
  rw [bget_append_left (by omega), bget_append_left (by omega)]

theorem readUInt32BE_append {A E : List Nat} {p : Nat} (h : p + 4 ≤ A.length) :
    readUInt32BE (A ++ E) p = readUInt32BE A p := by
  unfold readUInt32BE
  rw [bget_append_left (by omega), bget_append_left (by omega),
    bget_append_left (by omega), bget_append_left (by omega)]

theorem headerBytes_append {A E : List Nat} {p : Nat} (h : p + 4 ≤ A.length) :
    ((A ++ E).drop p).take FRAME_HEADER_SIZE = (A.drop p).take FRAME_HEADER_SIZE := by
  rw [List.drop_append_of_le_length (by omega),
    List.take_append_of_le_length (by simp only [FRAME_HEADER_SIZE, List.length_drop]; omega)]

theorem hasId3Magic_append {A E : List Nat} (h : 3 ≤ A.length) :
    hasId3Magic (A ++ E) = hasId3Magic A := by
  unfold hasId3Magic
  rw [bget_append_left (by omega), bget_append_left (by omega), bget_append_left (by omega)]

theorem skipId3v2Tag_eq_zero {B : List Nat} (h : hasId3Magic B = false) :
    skipId3v2Tag B = 0 := by
  unfold skipId3v2Tag
  split
  · rfl
  · rw [if_neg (by simp [h])]

end Mp3

namespace Mp3

theorem isFormatSpecificFrame_append {A E : List Nat} {p : Nat} (h : p + 4 ≤ A.length) :
    isFormatSpecificFrame (A ++ E) p = isFormatSpecificFrame A p := by
  have h1 : ¬ (p + FRAME_HEADER_SIZE > (A ++ E).length) := by
    simp only [FRAME_HEADER_SIZE, List.length_append]; omega
  have h2 : ¬ (p + FRAME_HEADER_SIZE > A.length) := by
    simp only [FRAME_HEADER_SIZE]; omega
  unfold isFormatSpecificFrame
  rw [readUInt32BE_append h, bget_append_left (show p + 1 < A.length by omega),
    bget_append_left (show p + 3 < A.length by omega), if_neg h1, if_neg h2]

theorem isHeaderFrame_append {A E : List Nat} {p : Nat} (h : p + 40 ≤ A.length) :
    isHeaderFrame (A ++ E) p = isHeaderFrame A p := by
  have hg1 : ¬ (p + 40 > (A ++ E).length) := by simp only [List.length_append]; omega
  have hg2 : ¬ (p + 40 > A.length) := by omega
  unfold isHeaderFrame
  rw [bget_append_left (show p + 3 < A.length by omega), if_neg hg1, if_neg hg2]
  by_cases hc : (((bget A (p + 3) >>> 6) &&& 0x03) == CHANNEL_MODE_MONO) = true
  · simp only [hc, if_true, FRAME_HEADER_SIZE, SIDE_INFO_MONO]
    have hm1 : ¬ (p + 4 + 17 + 4 > (A ++ E).length) := by simp only [List.length_append]; omega
    have hm2 : ¬ (p + 4 + 17 + 4 > A.length) := by omega
    rw [bget_append_left (show p + 4 + 17 < A.length by omega),
      bget_append_left (show p + 4 + 17 + 1 < A.length by omega),
      bget_append_left (show p + 4 + 17 + 2 < A.length by omega),
      bget_append_left (show p + 4 + 17 + 3 < A.length by omega),
      if_neg hm1, if_neg hm2]
  · simp only [hc, if_false, FRAME_HEADER_SIZE, SIDE_INFO_STEREO, Bool.false_eq_true]
    have hm1 : ¬ (p + 4 + 32 + 4 > (A ++ E).length) := by simp only [List.length_append]; omega
    have hm2 : ¬ (p + 4 + 32 + 4 > A.length) := by omega
    rw [bget_append_left (show p + 4 + 32 < A.length by omega),
      bget_append_left (show p + 4 + 32 + 1 < A.length by omega),
      bget_append_left (show p + 4 + 32 + 2 < A.length by omega),
      bget_append_left (show p + 4 + 32 + 3 < A.length by omega),
      if_neg hm1, if_neg hm2]

end Mp3

namespace Mp3

/- Helper lemmas: the frame-length formula is bounded on the accepted index
ranges (bitrate index 1..14, sample-rate index 0..2, padding bit 0..1). -/

theorem tables_bitrate_facts : ∀ i : Fin 16,
    MPEG1_LAYER3_BITRATES.getD i.val 0 ≠ 0 → i.val ≠ 0 ∧ i.val ≠ 15 := by
  decide

theorem tables_sampleRate_facts : ∀ j : Fin 4,
    MPEG1_SAMPLE_RATES.getD j.val 0 ≠ 0 → j.val ≠ 3 := by
  decide

theorem tables_bounds : ∀ i : Fin 16, ∀ j : Fin 4, ∀ pd : Fin 2,
    i.val ≠ 0 → i.val ≠ 15 → j.val ≠ 3 →
      MPEG1_LAYER3_BITRATES.getD i.val 0 ≠ 0 ∧ MPEG1_SAMPLE_RATES.getD j.val 0 ≠ 0 ∧
      96 ≤ FRAME_LENGTH_MULTIPLIER * MPEG1_LAYER3_BITRATES.getD i.val 0 * 1000 /
          MPEG1_SAMPLE_RATES.getD j.val 0 + pd.val ∧
      FRAME_LENGTH_MULTIPLIER * MPEG1_LAYER3_BITRATES.getD i.val 0 * 1000 /
          MPEG1_SAMPLE_RATES.getD j.val 0 + pd.val ≤ 1441 := by
  decide

theorem bitrateIndexOf_lt (header : Nat) : bitrateIndexOf header < 16 :=
  Nat.lt_succ_of_le Nat.and_le_right

theorem sampleRateIndexOf_lt (header : Nat) : sampleRateIndexOf header < 4 :=
  Nat.lt_succ_of_le (le_trans Nat.and_le_right (by norm_num))

theorem paddingOf_lt (header : Nat) : paddingOf header < 2 :=
  Nat.lt_succ_of_le Nat.and_le_right

theorem calcCore_bounds {header : Nat}
    (h0 : bitrateIndexOf header ≠ 0) (h15 : bitrateIndexOf header ≠ 15)
    (hsr : sampleRateIndexOf header ≠ 3) :
    96 ≤ calcCore header ∧ calcCore header ≤ 1441 := by
  obtain ⟨hb, hs, hlo, hhi⟩ :=
    (tables_bounds ⟨_, bitrateIndexOf_lt header⟩ ⟨_, sampleRateIndexOf_lt header⟩
      ⟨_, paddingOf_lt header⟩ h0 h15 hsr)
  unfold calcCore
  rw [if_neg (by push_neg; exact ⟨hb, hs⟩)]
  exact ⟨hlo, hhi⟩

theorem format_extract {B : List Nat} {p : Nat} (h : isFormatSpecificFrame B p = true) :
    p + 4 ≤ B.length ∧ bitrateIndexOf (readUInt32BE B p) ≠ 0 ∧
      bitrateIndexOf (readUInt32BE B p) ≠ 15 ∧ sampleRateIndexOf (readUInt32BE B p) ≠ 3 := by
  simp only [isFormatSpecificFrame] at h
  split at h
  · exact absurd h (by simp)
  · split at h
    · exact absurd h (by simp)
    · split at h
      · exact absurd h (by simp)
      · split at h
        · exact absurd h (by simp)
        · split at h
          · exact absurd h (by simp)
          · rename_i hlen _ _ hbr hsr
            refine ⟨by simp only [FRAME_HEADER_SIZE] at hlen; omega, ?_, ?_, hsr⟩
            · exact fun hc => hbr (Or.inl hc)
            · exact fun hc => hbr (Or.inr hc)

theorem format_calcCore_bounds {B : List Nat} {p : Nat}
    (h : isFormatSpecificFrame B p = true) :
    96 ≤ calcCore (readUInt32BE B p) ∧ calcCore (readUInt32BE B p) ≤ 1441 :=
  calcCore_bounds (format_extract h).2.1 (format_extract h).2.2.1 (format_extract h).2.2.2

theorem calculateFrameLength_slice {B : List Nat} {p : Nat} (h : p + 4 ≤ B.length) :
    calculateFrameLength ((B.drop p).take FRAME_HEADER_SIZE) = calcCore (readUInt32BE B p) := by
  unfold calculateFrameLength
  rw [if_neg (by simp only [FRAME_HEADER_SIZE, List.length_take, List.length_drop]; omega),
    readUInt32BE_slice]

theorem parse_some_facts {B : List Nat} {p fl : Nat} (h : parseFrameHeaderE B p = some fl) :
    p + 4 ≤ B.length ∧ 96 ≤ fl ∧ fl ≤ 1441 := by
  simp only [parseFrameHeaderE] at h
  split at h
  · exact absurd h (by simp)
  · rename_i hlen
    split at h
    · exact absurd h (by simp)
    · rename_i hnz
      push_neg at hnz
      obtain ⟨hi0, hi15⟩ :=
        tables_bitrate_facts ⟨_, bitrateIndexOf_lt (readUInt32BE B p)⟩ hnz.1
      have hj3 := tables_sampleRate_facts ⟨_, sampleRateIndexOf_lt (readUInt32BE B p)⟩ hnz.2
      obtain ⟨-, -, hlo, hhi⟩ :=
        tables_bounds ⟨_, bitrateIndexOf_lt (readUInt32BE B p)⟩
          ⟨_, sampleRateIndexOf_lt (readUInt32BE B p)⟩
          ⟨_, paddingOf_lt (readUInt32BE B p)⟩ hi0 hi15 hj3
      injection h with h
      subst h
      exact ⟨by simp only [FRAME_HEADER_SIZE] at hlen; omega, hlo, hhi⟩

theorem parse_eq_some_of_format {B : List Nat} {p : Nat}
    (h : isFormatSpecificFrame B p = true) :
    parseFrameHeaderE B p = some (calcCore (readUInt32BE B p)) := by
  obtain ⟨hlen, h0, h15, hsr⟩ := format_extract h
  obtain ⟨hb, hs, -, -⟩ :=
    (tables_bounds ⟨_, bitrateIndexOf_lt (readUInt32BE B p)⟩
      ⟨_, sampleRateIndexOf_lt (readUInt32BE B p)⟩
      ⟨_, paddingOf_lt (readUInt32BE B p)⟩ h0 h15 hsr)
  unfold parseFrameHeaderE
  rw [if_neg (by simp only [FRAME_HEADER_SIZE]; omega),
    if_neg (by push_neg; exact ⟨hb, hs⟩)]
  unfold calcCore
  rw [if_neg (by push_neg; exact ⟨hb, hs⟩)]

theorem skipId3v2Tag_zero_of_sync {B : List Nat} (h : isFrameSync B 0 = true) :
    skipId3v2Tag B = 0 := by
  apply skipId3v2Tag_eq_zero
  unfold isFrameSync at h
  unfold hasId3Magic
  rcases Bool.and_eq_true_iff.mp h with ⟨h1, -⟩
  have h0 : bget B 0 = SYNC_BYTE := by simpa using h1
  simp [h0, SYNC_BYTE]

end Mp3

namespace Mp3

/- C1 machinery: `countLoop` steps over valid frames. -/

theorem countLoop_nil {B : List Nat} {cnt : Nat} : countLoop B B.length cnt = cnt := by
  rw [countLoop.eq_def, dif_neg]
  simp only [MIN_FRAME_SIZE]
  omega

theorem countLoop_frame_step {B : List Nat} {p len cnt : Nat} (hf : AudioFrameAt B p len) :
    countLoop B p cnt = countLoop B (p + len) (cnt + 1) := by
  obtain ⟨hs, hfmt, hparse, hfit, hhd⟩ := hf
  obtain ⟨hp4, h96, h1441⟩ := parse_some_facts hparse
  rw [countLoop.eq_def,
    dif_pos (show p < B.length - MIN_FRAME_SIZE by simp only [MIN_FRAME_SIZE]; omega),
    if_pos hs, if_pos hfmt]
  simp only [hparse]
  rw [dif_pos (show 0 < len ∧ p + len ≤ B.length by omega), if_neg (by simp [hhd])]

theorem countLoop_summary_step {B : List Nat} {p len cnt : Nat} (hf : SummaryFrameAt B p len) :
    countLoop B p cnt = countLoop B (p + len) cnt := by
  obtain ⟨hs, hfmt, hparse, hfit, hhd⟩ := hf
  obtain ⟨hp4, h96, h1441⟩ := parse_some_facts hparse
  rw [countLoop.eq_def,
    dif_pos (show p < B.length - MIN_FRAME_SIZE by simp only [MIN_FRAME_SIZE]; omega),
    if_pos hs, if_pos hfmt]
  simp only [hparse]
  rw [dif_pos (show 0 < len ∧ p + len ≤ B.length by omega), if_pos (by simp [hhd])]

theorem countLoop_frameSeq {B : List Nat} {p : Nat} {lens : List Nat}
    (h : FrameSeq B p lens) : ∀ cnt, countLoop B p cnt = cnt + lens.length := by
  induction h with
  | nil p hp =>
    intro cnt
    subst hp
    simp [countLoop_nil]
  | cons p len lens hf hrest ih =>
    intro cnt
    rw [countLoop_frame_step hf, ih (cnt + 1)]
    simp only [List.length_cons]
    omega

end Mp3

namespace Mp3

/-- C1: a buffer that is a contiguous concatenation of valid MPEG-1 Layer 3
audio frames (none a metadata-summary frame) makes `countFrames` return exactly
the number of frames; and a valid summary frame followed by N audio frames
yields N, not N + 1.  (The zero-frame buffer is excluded: `countFrames` reports
the no-valid-frames failure rather than a count there, per spec §4.6.) -/
theorem c1_countFrames_exact :
    (∀ B lens, FrameSeq B 0 lens → lens ≠ [] → countFrames B = .ok lens.length) ∧
    (∀ B len0 lens, SummaryFrameAt B 0 len0 → FrameSeq B len0 lens → lens ≠ [] →
      countFrames B = .ok lens.length) := by
  constructor
  · intro B lens h hne
    have h0 := countLoop_frameSeq h 0
    rcases lens with _ | ⟨len, rest⟩
    · exact absurd rfl hne
    have hf : AudioFrameAt B 0 len := by
      cases h
      rename_i hf hrest
      exact hf
    have hB4 : 4 ≤ B.length := by
      have := (parse_some_facts hf.2.2.1).1
      omega
    unfold countFrames
    rw [if_neg (by omega), skipId3v2Tag_zero_of_sync hf.1]
    simp [h0]
  · intro B len0 lens hsum h hne
    have h0 := countLoop_frameSeq h 0
    have hstep := @countLoop_summary_step B 0 len0 0 hsum
    rw [Nat.zero_add] at hstep
    have hB4 : 4 ≤ B.length := by
      have := (parse_some_facts hsum.2.2.1).1
      omega
    unfold countFrames
    rw [if_neg (by omega), skipId3v2Tag_zero_of_sync hsum.1, hstep, h0]
    have : lens.length ≠ 0 := by
      cases lens
      · exact absurd rfl hne
      · simp
    simp only [Nat.zero_add]
    rw [if_neg this]

set_option maxRecDepth 40000 in
/-- C1 witness: two compliant 417-byte audio frames count as 2; a Xing summary
frame followed by one audio frame counts as 1. -/
theorem c1_witness : countFrames twoFrameBuffer = .ok 2 ∧ countFrames xingThenAudio = .ok 1 := by
  constructor
  · have hseq : FrameSeq twoFrameBuffer 0 [417, 417] :=
      .cons _ _ _ _ ⟨by decide, by decide, by decide, by decide, by decide⟩
        (.cons _ _ _ _ ⟨by decide, by decide, by decide, by decide, by decide⟩
          (.nil _ _ (by decide)))
    exact c1_countFrames_exact.1 twoFrameBuffer [417, 417] hseq (by simp)
  · have hsum : SummaryFrameAt xingThenAudio 0 417 :=
      ⟨by decide, by decide, by decide, by decide, by decide⟩
    have hseq : FrameSeq xingThenAudio 417 [417] :=
      .cons _ _ _ _ ⟨by decide, by decide, by decide, by decide, by decide⟩
        (.nil _ _ (by decide))
    exact c1_countFrames_exact.2 xingThenAudio 417 [417] hsum hseq (by simp)

end Mp3

namespace Mp3


theorem countLoopF_eq (B : List Nat) : ∀ p cnt, ∀ fuel, B.length - p ≤ fuel →
    countLoopF fuel B p cnt = countLoop B p cnt := by
  intro p cnt
  induction p, cnt using countLoop.induct B with
  | case1 p cnt hp hs hf fl hpe hfit ih =>
    intro fuel hfuel
    cases fuel with
    | zero => exfalso; simp only [MIN_FRAME_SIZE] at hp; omega
    | succ n =>
      simp only [countLoopF]
      rw [if_pos hp, if_pos hs, if_pos hf]
      simp only [hpe]
      rw [if_pos hfit]
      rw [countLoop.eq_def, dif_pos hp, if_pos hs, if_pos hf]
      simp only [hpe]
      rw [dif_pos hfit]
      exact ih n (by omega)
  | case2 p cnt hp hs hf fl hpe hfit ih =>
    intro fuel hfuel
    cases fuel with
    | zero => exfalso; simp only [MIN_FRAME_SIZE] at hp; omega
    | succ n =>
      simp only [countLoopF]
      rw [if_pos hp, if_pos hs, if_pos hf]
      simp only [hpe]
      rw [if_neg hfit]
      rw [countLoop.eq_def, dif_pos hp, if_pos hs, if_pos hf]
      simp only [hpe]
      rw [dif_neg hfit]
      exact ih n (by omega)
  | case3 p cnt hp hs hf hpe ih =>
    intro fuel hfuel
    cases fuel with
    | zero => exfalso; simp only [MIN_FRAME_SIZE] at hp; omega
    | succ n =>
      simp only [countLoopF]
      rw [if_pos hp, if_pos hs, if_pos hf]
      simp only [hpe]
      rw [countLoop.eq_def, dif_pos hp, if_pos hs, if_pos hf]
      simp only [hpe]
      exact ih n (by omega)
  | case4 p cnt hp hs hf ih =>
    intro fuel hfuel
    cases fuel with
    | zero => exfalso; simp only [MIN_FRAME_SIZE] at hp; omega
    | succ n =>
      simp only [countLoopF]
      rw [if_pos hp, if_pos hs, if_neg hf]
      rw [countLoop.eq_def, dif_pos hp, if_pos hs, if_neg hf]
      exact ih n (by omega)
  | case5 p cnt hp hs ih =>
    intro fuel hfuel
    cases fuel with
    | zero => exfalso; simp only [MIN_FRAME_SIZE] at hp; omega
    | succ n =>
      simp only [countLoopF]
      rw [if_pos hp, if_neg hs]
      rw [countLoop.eq_def, dif_pos hp, if_neg hs]
      exact ih n (by omega)
  | case6 p cnt hp =>
    intro fuel hfuel
    rw [countLoop.eq_def, dif_neg hp]
    cases fuel with
    | zero => rfl
    | succ n => simp only [countLoopF]; rw [if_neg hp]

set_option maxRecDepth 100000 in
example : countLoop scenarioBuffer 0 0 = 2 := by
  rw [← countLoopF_eq scenarioBuffer 0 0 842 (by decide)]
  decide

end Mp3

namespace Mp3


theorem countLoopPositionsF_eq (B : List Nat) : ∀ p, ∀ fuel, B.length - p ≤ fuel →
    countLoopPositionsF fuel B p = countLoopPositions B p := by
  intro p
  induction p using countLoopPositions.induct B with
  | case1 p hp hs hf fl hpe hfit hhd ih =>
    intro fuel hfuel
    cases fuel with
    | zero => exfalso; simp only [MIN_FRAME_SIZE] at hp; omega
    | succ n =>
      simp only [countLoopPositionsF]
      rw [if_pos hp, if_pos hs, if_pos hf]
      simp only [hpe]
      rw [if_pos hfit, if_pos hhd]
      rw [countLoopPositions.eq_def, dif_pos hp, if_pos hs, if_pos hf]
      simp only [hpe]
      rw [dif_pos hfit, if_pos hhd]
      exact ih n (by omega)
  | case2 p hp hs hf fl hpe hfit hhd ih =>
    intro fuel hfuel
    cases fuel with
    | zero => exfalso; simp only [MIN_FRAME_SIZE] at hp; omega
    | succ n =>
      simp only [countLoopPositionsF]
      rw [if_pos hp, if_pos hs, if_pos hf]
      simp only [hpe]
      rw [if_pos hfit, if_neg hhd]
      rw [countLoopPositions.eq_def, dif_pos hp, if_pos hs, if_pos hf]
      simp only [hpe]
      rw [dif_pos hfit, if_neg hhd]
      rw [ih n (by omega)]
  | case3 p hp hs hf fl hpe hfit ih =>
    intro fuel hfuel
    cases fuel with
    | zero => exfalso; simp only [MIN_FRAME_SIZE] at hp; omega
    | succ n =>
      simp only [countLoopPositionsF]
      rw [if_pos hp, if_pos hs, if_pos hf]
      simp only [hpe]
      rw [if_neg hfit]
      rw [countLoopPositions.eq_def, dif_pos hp, if_pos hs, if_pos hf]
      simp only [hpe]
      rw [dif_neg hfit]
      exact ih n (by omega)
  | case4 p hp hs hf hpe ih =>
    intro fuel hfuel
    cases fuel with
    | zero => exfalso; simp only [MIN_FRAME_SIZE] at hp; omega
    | succ n =>
      simp only [countLoopPositionsF]
      rw [if_pos hp, if_pos hs, if_pos hf]
      simp only [hpe]
      rw [countLoopPositions.eq_def, dif_pos hp, if_pos hs, if_pos hf]
      simp only [hpe]
      exact ih n (by omega)
  | case5 p hp hs hf ih =>
    intro fuel hfuel
    cases fuel with
    | zero => exfalso; simp only [MIN_FRAME_SIZE] at hp; omega
    | succ n =>
      simp only [countLoopPositionsF]
      rw [if_pos hp, if_pos hs, if_neg hf]
      rw [countLoopPositions.eq_def, dif_pos hp, if_pos hs, if_neg hf]
      exact ih n (by omega)
  | case6 p hp hs ih =>
    intro fuel hfuel
    cases fuel with
    | zero => exfalso; simp only [MIN_FRAME_SIZE] at hp; omega
    | succ n =>
      simp only [countLoopPositionsF]
      rw [if_pos hp, if_neg hs]
      rw [countLoopPositions.eq_def, dif_pos hp, if_neg hs]
      exact ih n (by omega)
  | case7 p hp =>
    intro fuel hfuel
    rw [countLoopPositions.eq_def, dif_neg hp]
    cases fuel with
    | zero => rfl
    | succ n => simp only [countLoopPositionsF]; rw [if_neg hp]

end Mp3

namespace Mp3


theorem validateLoopF_eq (B : List Nat) : ∀ p cnt, ∀ fuel, B.length - p ≤ fuel →
    validateLoopF fuel B p cnt = validateLoop B p cnt := by
  intro p cnt
  induction p, cnt using validateLoop.induct B with
  | case1 p cnt hp hs hf hpe =>
    intro fuel hfuel
    cases fuel with
    | zero => exfalso; simp only [MIN_FRAME_SIZE] at hp; omega
    | succ n =>
      simp only [validateLoopF]
      rw [if_pos hp, if_pos hs, if_pos hf]
      simp only [hpe]
      rw [validateLoop.eq_def, dif_pos hp, if_pos hs, if_pos hf]
      simp only [hpe]
  | case2 p cnt hp hs hf hpe =>
    intro fuel hfuel
    cases fuel with
    | zero => exfalso; simp only [MIN_FRAME_SIZE] at hp; omega
    | succ n =>
      simp only [validateLoopF]
      rw [if_pos hp, if_pos hs, if_pos hf]
      simp only [hpe]
      rw [validateLoop.eq_def, dif_pos hp, if_pos hs, if_pos hf]
      simp only [hpe]
      simp
  | case3 p cnt hp hs hf fl hpe hfl htr =>
    intro fuel hfuel
    cases fuel with
    | zero => exfalso; simp only [MIN_FRAME_SIZE] at hp; omega
    | succ n =>
      simp only [validateLoopF]
      rw [if_pos hp, if_pos hs, if_pos hf]
      simp only [hpe]
      rw [if_neg hfl, if_pos htr]
      rw [validateLoop.eq_def, dif_pos hp, if_pos hs, if_pos hf]
      simp only [hpe]
      rw [dif_neg hfl, dif_pos htr]
  | case4 p cnt hp hs hf fl hpe hfl htr nxp hnx hal =>
    intro fuel hfuel
    cases fuel with
    | zero => exfalso; simp only [MIN_FRAME_SIZE] at hp; omega
    | succ n =>
      simp only [validateLoopF]
      rw [if_pos hp, if_pos hs, if_pos hf]
      simp only [hpe]
      rw [if_neg hfl, if_neg htr, if_pos hnx, if_pos hal]
      rw [validateLoop.eq_def, dif_pos hp, if_pos hs, if_pos hf]
      simp only [hpe]
      rw [dif_neg hfl, dif_neg htr, if_pos hnx, if_pos hal]
  | case5 p cnt hp hs hf fl hpe hfl htr nxp hnx hal ih =>
    intro fuel hfuel
    cases fuel with
    | zero => exfalso; simp only [MIN_FRAME_SIZE] at hp; omega
    | succ n =>
      obtain ⟨-, hfl96, -⟩ := parse_some_facts hpe
      simp only [validateLoopF]
      rw [if_pos hp, if_pos hs, if_pos hf]
      simp only [hpe]
      rw [if_neg hfl, if_neg htr, if_pos hnx, if_neg hal]
      rw [validateLoop.eq_def, dif_pos hp, if_pos hs, if_pos hf]
      simp only [hpe]
      rw [dif_neg hfl, dif_neg htr, if_pos hnx, if_neg hal]
      exact ih n (by omega)
  | case6 p cnt hp hs hf fl hpe hfl htr nxp hnx ih =>
    intro fuel hfuel
    cases fuel with
    | zero => exfalso; simp only [MIN_FRAME_SIZE] at hp; omega
    | succ n =>
      obtain ⟨-, hfl96, -⟩ := parse_some_facts hpe
      simp only [validateLoopF]
      rw [if_pos hp, if_pos hs, if_pos hf]
      simp only [hpe]
      rw [if_neg hfl, if_neg htr, if_neg hnx]
      rw [validateLoop.eq_def, dif_pos hp, if_pos hs, if_pos hf]
      simp only [hpe]
      rw [dif_neg hfl, dif_neg htr, if_neg hnx]
      exact ih n (by omega)
  | case7 p cnt hp hs hf ih =>
    intro fuel hfuel
    cases fuel with
    | zero => exfalso; simp only [MIN_FRAME_SIZE] at hp; omega
    | succ n =>
      simp only [validateLoopF]
      rw [if_pos hp, if_pos hs, if_neg hf]
      rw [validateLoop.eq_def, dif_pos hp, if_pos hs, if_neg hf]
      exact ih n (by omega)
  | case8 p cnt hp hs ih =>
    intro fuel hfuel
    cases fuel with
    | zero => exfalso; simp only [MIN_FRAME_SIZE] at hp; omega
    | succ n =>
      simp only [validateLoopF]
      rw [if_pos hp, if_neg hs]
      rw [validateLoop.eq_def, dif_pos hp, if_neg hs]
      exact ih n (by omega)
  | case9 p cnt hp =>
    intro fuel hfuel
    rw [validateLoop.eq_def, dif_neg hp]
    cases fuel with
    | zero => rfl
    | succ n => simp only [validateLoopF]; rw [if_neg hp]

end Mp3

namespace Mp3

set_option maxRecDepth 100000 in
/-- C3 counterexample: on the spec's concrete 842-byte input (header
`FF FB 90 00` + 417-byte zero body, twice), `validate` does not succeed; the
alignment check after the second frame (expected next offset 838 < 842, no
sync within the 4-byte tolerance) raises the frame-alignment failure. -/
theorem c3_counterexample : validate scenarioBuffer = .error .frameAlignment := by
  unfold validate
  rw [if_neg (show ¬ scenarioBuffer.length = 0 by decide),
    if_neg (show ¬ scenarioBuffer.length < MIN_FRAME_SIZE by decide),
    show skipId3v2Tag scenarioBuffer = 0 by decide,
    ← validateLoopF_eq scenarioBuffer 0 0 842 (by decide)]
  decide

set_option maxRecDepth 100000 in
/-- C3 amended: on the concrete 842-byte input, `countFrames` finds exactly 2
frames, the counted frames start at offsets 0 and 421 (the second strictly
greater than the first), but `validate` does not succeed: it raises the
frame-alignment failure on the final frame. -/
theorem c3_concrete_scenario :
    countFrames scenarioBuffer = .ok 2 ∧
      countLoopPositions scenarioBuffer (skipId3v2Tag scenarioBuffer) = [0, 421] ∧
      validate scenarioBuffer = .error .frameAlignment := by
  refine ⟨?_, ?_, ?_⟩
  · unfold countFrames
    rw [if_neg (show ¬ scenarioBuffer.length = 0 by decide),
      show skipId3v2Tag scenarioBuffer = 0 by decide,
      ← countLoopF_eq scenarioBuffer 0 0 842 (by decide)]
    decide
  · rw [show skipId3v2Tag scenarioBuffer = 0 by decide,
      ← countLoopPositionsF_eq scenarioBuffer 0 842 (by decide)]
    decide
  · unfold validate
    rw [if_neg (show ¬ scenarioBuffer.length = 0 by decide),
      if_neg (show ¬ scenarioBuffer.length < MIN_FRAME_SIZE by decide),
      show skipId3v2Tag scenarioBuffer = 0 by decide,
      ← validateLoopF_eq scenarioBuffer 0 0 842 (by decide)]
    decide

end Mp3

namespace Mp3

/-- C9: any 4-byte header whose bitrate-index field is zero makes
`calculateFrameLength` return 0 and `isFormatSpecificFrame` return false. -/
theorem c9_zero_bitrate_rejected :
    ∀ hb : List Nat, hb.length = 4 → bitrateIndexOf (readUInt32BE hb 0) = 0 →
      calculateFrameLength hb = 0 ∧ isFormatSpecificFrame hb 0 = false := by
  intro hb hlen hbi
  constructor
  · unfold calculateFrameLength
    rw [if_neg (by simp only [FRAME_HEADER_SIZE]; omega)]
    unfold calcCore
    rw [hbi]
    simp [MPEG1_LAYER3_BITRATES]
  · simp only [isFormatSpecificFrame]
    split_ifs with h1 h2 h3 h4 h5 h6 <;> try rfl
    exact absurd (Or.inl hbi) h4

set_option maxRecDepth 4000 in
/-- C9 witness: the concrete header bytes `FF FB 00 00`. -/
theorem c9_witness :
    bitrateIndexOf (readUInt32BE [0xff, 0xfb, 0x00, 0x00] 0) = 0 ∧
      calculateFrameLength [0xff, 0xfb, 0x00, 0x00] = 0 ∧
      isFormatSpecificFrame [0xff, 0xfb, 0x00, 0x00] 0 = false := by
  refine ⟨by decide, ?_⟩
  exact c9_zero_bitrate_rejected [0xff, 0xfb, 0x00, 0x00] (by decide) (by decide)

/-- C10: every 4-byte header accepted by `isFormatSpecificFrame` has a computed
frame length between 96 and 1441 inclusive; in particular the length strictly
exceeds the 4-byte header size, so every accepted frame advances the scan
cursor by at least 96 bytes. -/
theorem c10_accepted_length_bounds :
    ∀ (B : List Nat) (p : Nat), isFormatSpecificFrame B p = true →
      96 ≤ calculateFrameLength ((B.drop p).take FRAME_HEADER_SIZE) ∧
      calculateFrameLength ((B.drop p).take FRAME_HEADER_SIZE) ≤ 1441 ∧
      FRAME_HEADER_SIZE < calculateFrameLength ((B.drop p).take FRAME_HEADER_SIZE) := by
  intro B p h
  have h4 := (format_extract h).1
  rw [calculateFrameLength_slice h4]
  obtain ⟨hlo, hhi⟩ := format_calcCore_bounds h
  exact ⟨hlo, hhi, by simp only [FRAME_HEADER_SIZE]; omega⟩

set_option maxRecDepth 100000 in
/-- C10 witness: the header `FF FB 90 00` at the start of the scenario frame is
accepted and its computed length 417 lies within the bounds. -/
theorem c10_witness :
    isFormatSpecificFrame scenarioFrame 0 = true ∧
      96 ≤ calculateFrameLength ((scenarioFrame.drop 0).take FRAME_HEADER_SIZE) ∧
      calculateFrameLength ((scenarioFrame.drop 0).take FRAME_HEADER_SIZE) ≤ 1441 ∧
      FRAME_HEADER_SIZE < calculateFrameLength ((scenarioFrame.drop 0).take FRAME_HEADER_SIZE) :=
  ⟨by decide, c10_accepted_length_bounds scenarioFrame 0 (by decide)⟩

/-- Helper: the emission step of `findNextFrame` — a fitting accepted candidate
at the cursor is emitted and the cursor jumps past it. -/
theorem findNextFrameAux_emit {B : List Nat} {p fl : Nat}
    (hs : isFrameSync B p = true) (hf : isFormatSpecificFrame B p = true)
    (hfl : calculateFrameLength ((B.drop p).take FRAME_HEADER_SIZE) = fl)
    (h0 : fl ≠ 0) (hfit : p + fl ≤ B.length) (hp : p < B.length - MIN_FRAME_SIZE) :
    findNextFrameAux B p = (some (p, fl), p + fl) := by
  subst hfl
  rw [findNextFrameAux.eq_def, dif_pos hp, if_neg (not_not_intro hs),
    if_neg (not_not_intro hf), if_neg h0, if_neg (by omega)]

/-- C6: every frame the iterator's `findNextFrame` emits satisfies
`start + length ≤ buffer.length` (with the cursor advanced exactly past the
frame); and when the candidate frame at the cursor would extend past the
buffered bytes, `findNextFrame` emits nothing and leaves the cursor in place,
so the iterator waits for more input. -/
theorem c6_emission_invariant :
    (∀ (B : List Nat) (p fp fl q : Nat),
      findNextFrameAux B p = (some (fp, fl), q) → fp + fl ≤ B.length ∧ q = fp + fl) ∧
    (∀ (B : List Nat) (p : Nat), isFrameSync B p = true → isFormatSpecificFrame B p = true →
      B.length < p + calculateFrameLength ((B.drop p).take FRAME_HEADER_SIZE) →
      findNextFrameAux B p = (none, p)) := by
  constructor
  · intro B p
    induction p using findNextFrameAux.induct B with
    | case1 x hx hs ih =>
      intro fp fl q h
      rw [findNextFrameAux.eq_def, dif_pos hx, if_pos hs] at h
      exact ih _ _ _ h
    | case2 x hx hs hf ih =>
      intro fp fl q h
      rw [findNextFrameAux.eq_def, dif_pos hx, if_neg hs, if_pos hf] at h
      exact ih _ _ _ h
    | case3 x hx hs hf fl0 hfl ih =>
      intro fp fl q h
      rw [findNextFrameAux.eq_def, dif_pos hx, if_neg hs, if_neg hf, if_pos hfl] at h
      exact ih _ _ _ h
    | case4 x hx hs hf fl0 hfl hfit =>
      intro fp fl q h
      rw [findNextFrameAux.eq_def, dif_pos hx, if_neg hs, if_neg hf, if_neg hfl,
        if_pos hfit] at h
      exact absurd h (by simp)
    | case5 x hx hs hf fl0 hfl hfit =>
      intro fp fl q h
      rw [findNextFrameAux.eq_def, dif_pos hx, if_neg hs, if_neg hf, if_neg hfl,
        if_neg hfit] at h
      injection h with h1 h2
      injection h1 with h1
      injection h1 with ha hb
      subst ha hb h2
      omega
    | case6 x hx =>
      intro fp fl q h
      rw [findNextFrameAux.eq_def, dif_neg hx] at h
      exact absurd h (by simp)
  · intro B p hs hf hover
    rw [findNextFrameAux.eq_def]
    by_cases hp : p < B.length - MIN_FRAME_SIZE
    · have hfl : calculateFrameLength ((B.drop p).take FRAME_HEADER_SIZE) ≠ 0 := by
        have h4 := (format_extract hf).1
        rw [calculateFrameLength_slice h4]
        have := (format_calcCore_bounds hf).1
        omega
      rw [dif_pos hp, if_neg (not_not_intro hs), if_neg (not_not_intro hf), if_neg hfl,
        if_pos (by omega)]
    · rw [dif_neg hp]

set_option maxRecDepth 100000 in
/-- C6 witness: with only 10 bytes buffered, the valid candidate of declared
length 417 at the cursor is not emitted and the cursor stays put; on the fully
buffered 421-byte frame it is emitted with `start + length ≤ buffer.length`. -/
theorem c6_witness :
    findNextFrameAux (hdr90 ++ List.replicate 6 0) 0 = (none, 0) ∧
      findNextFrameAux scenarioFrame 0 = (some (0, 417), 0 + 417) ∧
      (0 : Nat) + 417 ≤ scenarioFrame.length := by
  refine ⟨?_, ?_, ?_⟩
  · exact c6_emission_invariant.2 (hdr90 ++ List.replicate 6 0) 0 (by decide) (by decide)
      (by decide)
  · exact findNextFrameAux_emit (by decide) (by decide) (by decide) (by decide) (by decide)
      (by decide)
  · exact (c6_emission_invariant.1 scenarioFrame 0 0 417 (0 + 417)
      (findNextFrameAux_emit (by decide) (by decide) (by decide) (by decide) (by decide)
        (by decide))).1

end Mp3

namespace Mp3

/-- Helper: bytes below 128 are fixed by the 7-bit mask. -/
theorem and127_of_lt {b : Nat} (h : b < 128) : b &&& 0x7f = b := by
  have : ∀ x : Fin 128, x.val &&& 0x7f = x.val := by decide
  exact this ⟨b, h⟩

/-- C5 counterexample: a 10-byte buffer with the ID3 magic whose first size
byte has the top bit set.  Its 28-bit synchsafe (7-bits-per-byte) size is 0, so
the claim predicts offset 10 (and 10 ≤ length holds), but the code decodes the
full byte, overflows the buffer, and returns 0. -/
theorem c5_counterexample :
    hasId3Magic [0x49, 0x44, 0x33, 0, 0, 0, 0x80, 0, 0, 0] = true ∧
      List.length [0x49, 0x44, 0x33, 0, 0, 0, 0x80, 0, 0, 0] = 10 ∧
      ID3V2_HEADER_SIZE + specSynchsafeSize [0x49, 0x44, 0x33, 0, 0, 0, 0x80, 0, 0, 0] ≤ 10 ∧
      skipId3v2Tag [0x49, 0x44, 0x33, 0, 0, 0, 0x80, 0, 0, 0] = 0 ∧
      skipId3v2Tag [0x49, 0x44, 0x33, 0, 0, 0, 0x80, 0, 0, 0] ≠
        ID3V2_HEADER_SIZE + specSynchsafeSize [0x49, 0x44, 0x33, 0, 0, 0, 0x80, 0, 0, 0] := by
  decide

/-- C5 amended: for buffers shorter than 10 bytes, or lacking the magic, the
skipper returns 0; for buffers of at least 10 bytes with the magic whose four
size bytes all have the top bit clear (as the tag format mandates — the code
reads full byte values, so only then does its size equal the 28-bit synchsafe
decode), it returns 10 plus the synchsafe size when that total fits the buffer,
and 0 when it would exceed it. -/
theorem c5_skipId3v2Tag_spec :
    ∀ B : List Nat,
      (B.length < 10 → skipId3v2Tag B = 0) ∧
      (hasId3Magic B = false → skipId3v2Tag B = 0) ∧
      (10 ≤ B.length → hasId3Magic B = true →
        bget B 6 < 128 → bget B 7 < 128 → bget B 8 < 128 → bget B 9 < 128 →
        (ID3V2_HEADER_SIZE + specSynchsafeSize B ≤ B.length →
          skipId3v2Tag B = ID3V2_HEADER_SIZE + specSynchsafeSize B) ∧
        (B.length < ID3V2_HEADER_SIZE + specSynchsafeSize B → skipId3v2Tag B = 0)) := by
  intro B
  refine ⟨?_, skipId3v2Tag_eq_zero, ?_⟩
  · intro h
    unfold skipId3v2Tag
    rw [if_pos (by simp only [ID3V2_HEADER_SIZE]; omega)]
  · intro hlen hmag h6 h7 h8 h9
    have hspec : specSynchsafeSize B =
        (bget B 6 <<< 21) ||| (bget B 7 <<< 14) ||| (bget B 8 <<< 7) ||| bget B 9 := by
      unfold specSynchsafeSize
      rw [and127_of_lt h6, and127_of_lt h7, and127_of_lt h8, and127_of_lt h9]
    constructor
    · intro hfit
      unfold skipId3v2Tag
      rw [if_neg (by simp only [ID3V2_HEADER_SIZE]; omega), if_pos hmag,
        if_pos (by rw [← hspec]; exact hfit), hspec]
    · intro hover
      unfold skipId3v2Tag
      rw [if_neg (by simp only [ID3V2_HEADER_SIZE]; omega), if_pos hmag,
        if_neg (by rw [← hspec]; omega)]

set_option maxRecDepth 100000 in
/-- C5 witness: a complete 431-byte tag inside an 852-byte buffer is skipped to
offset 10 + 421 = 431; the bare 10-byte tag header whose declared size overruns
the buffer yields 0. -/
theorem c5_witness :
    skipId3v2Tag id3ChunkBuffer = ID3V2_HEADER_SIZE + specSynchsafeSize id3ChunkBuffer ∧
      skipId3v2Tag id3Header421 = 0 := by
  constructor
  · exact ((c5_skipId3v2Tag_spec id3ChunkBuffer).2.2 (by decide) (by decide) (by decide)
      (by decide) (by decide) (by decide)).1 (by decide)
  · exact ((c5_skipId3v2Tag_spec id3Header421).2.2 (by decide) (by decide) (by decide)
      (by decide) (by decide) (by decide)).2 (by decide)

end Mp3

namespace Mp3

/- C8 machinery: association-list Map behaviour. -/

theorem find?_none_of_not_has {r : Registry} {k : String} (h : mapHas r k = false) :
    List.find? (fun e => e.1 == k) r = none := by
  unfold mapHas at h
  exact Option.not_isSome_iff_eq_none.mp (by simp [h])

theorem mapGet_append_self {r : Registry} {k : String} {v : Nat}
    (h : mapHas r k = false) : mapGet (r ++ [(k, v)]) k = some v := by
  unfold mapGet
  rw [List.find?_append, find?_none_of_not_has h]
  simp

theorem mapHas_append_self {r : Registry} {k : String} {v : Nat}
    (h : mapHas r k = false) : mapHas (r ++ [(k, v)]) k = true := by
  unfold mapHas
  rw [List.find?_append, find?_none_of_not_has h]
  simp

theorem mapHas_append_other {r : Registry} {k k2 : String} {v : Nat}
    (hne : k ≠ k2) : mapHas (r ++ [(k, v)]) k2 = mapHas r k2 := by
  unfold mapHas
  rw [List.find?_append]
  cases hr : List.find? (fun e => e.1 == k2) r with
  | none =>
    have hb : (k == k2) = false := beq_eq_false_iff_ne.mpr hne
    simp [hr, List.find?, hb]
  | some e => simp [hr]

theorem mapSet_fresh {r : Registry} {k : String} {v : Nat}
    (h : mapHas r k = false) : mapSet r k v = r ++ [(k, v)] := by
  unfold mapSet
  rw [if_neg (by simp [h])]

theorem registryKey_inj :
    ∀ v2 l2 v l : _, registryKey v2 l2 = registryKey v l → v2 = v ∧ l2 = l := by
  decide

/-- C8: after a successful registration under (version, layer), a second
registration under the same key fails with the duplicate-registration error and
the registry still resolves the key to the first parser; registration under any
distinct fresh key succeeds; and `getParser` on an unregistered key returns
`none` (it never throws — it is a total function into `Option`). -/
theorem c8_registry_contract :
    ∀ (r : Registry) (v : Mp3Version) (l : Mp3Layer) (p1 p2 : Nat) (r1 : Registry),
      registerParser r v l p1 = .ok r1 →
      registerParser r1 v l p2 = .error .parserAlreadyRegistered ∧
      getParser r1 v l = some p1 ∧
      (∀ v2 l2, (v2, l2) ≠ (v, l) → mapHas r (registryKey v2 l2) = false →
        ∃ r2, registerParser r1 v2 l2 p2 = .ok r2) ∧
      (∀ v3 l3, mapHas r (registryKey v3 l3) = false → getParser r v3 l3 = none) := by
  intro r v l p1 p2 r1 hreg
  unfold registerParser at hreg
  by_cases hhas : mapHas r (registryKey v l) = true
  · rw [if_pos hhas] at hreg
    exact absurd hreg (by simp)
  · have hhas' : mapHas r (registryKey v l) = false := by
      cases h : mapHas r (registryKey v l)
      · rfl
      · exact absurd h hhas
    rw [if_neg (by simp [hhas'])] at hreg
    injection hreg with hreg
    have hr1 : r1 = r ++ [(registryKey v l, p1)] := by
      rw [← hreg, mapSet_fresh hhas']
    subst hr1
    refine ⟨?_, ?_, ?_, ?_⟩
    · unfold registerParser
      rw [if_pos (by rw [mapHas_append_self hhas'])]
    · unfold getParser
      exact mapGet_append_self hhas'
    · intro v2 l2 hne hfresh
      have hkne : registryKey v l ≠ registryKey v2 l2 := by
        intro hk
        obtain ⟨hv, hl⟩ := registryKey_inj v l v2 l2 hk
        exact hne (by rw [hv, hl])
      refine ⟨mapSet (r ++ [(registryKey v l, p1)]) (registryKey v2 l2) p2, ?_⟩
      unfold registerParser
      rw [if_neg (by rw [mapHas_append_other hkne, hfresh]; simp)]
    · intro v3 l3 hfresh
      unfold getParser mapGet
      rw [find?_none_of_not_has hfresh]
      rfl

/-- C8 witness: a concrete duplicate registration under (MPEG-1, Layer 3)
fails, the first parser is still resolved, a (MPEG-2, Layer 3) registration
succeeds, and lookup in the empty registry yields `none`. -/
theorem c8_witness :
    registerParser [(registryKey .MPEG1 .Layer3, 1)] .MPEG1 .Layer3 2 =
        .error .parserAlreadyRegistered ∧
      getParser [(registryKey .MPEG1 .Layer3, 1)] .MPEG1 .Layer3 = some 1 ∧
      (∃ r2, registerParser [(registryKey .MPEG1 .Layer3, 1)] .MPEG2 .Layer3 2 = .ok r2) ∧
      getParser ([] : Registry) .MPEG1 .Layer3 = none := by
  have h := c8_registry_contract [] .MPEG1 .Layer3 1 2 [(registryKey .MPEG1 .Layer3, 1)]
    (by decide)
  exact ⟨h.1, h.2.1, h.2.2.1 .MPEG2 .Layer3 (by decide) (by decide),
    h.2.2.2 .MPEG1 .Layer3 (by decide)⟩

end Mp3

namespace Mp3


theorem detectLoop_no_sync {B : List Nat} :
    ∀ s, (∀ q, s ≤ q → q < B.length - FRAME_HEADER_SIZE → isFrameSync B q = false) →
      detectLoop B s = ⟨.Unknown, .Unknown, "No valid MP3 frame found"⟩ := by
  intro s
  induction s using detectLoop.induct B with
  | case1 p hp hs =>
    intro h
    exact absurd hs (by simp [h p le_rfl hp])
  | case2 p hp hs ih =>
    intro h
    rw [detectLoop.eq_def, dif_pos hp, if_neg hs]
    exact ih fun q hq hq2 => h q (by omega) hq2
  | case3 p hp =>
    intro h
    rw [detectLoop.eq_def, dif_neg hp]

theorem detectLoop_first_sync {B : List Nat} {q : Nat} (hq : isFrameSync B q = true)
    (hlt : q < B.length - FRAME_HEADER_SIZE) :
    ∀ s, s ≤ q → (∀ r, s ≤ r → r < q → isFrameSync B r = false) →
      detectLoop B s = detectDecode B q := by
  intro s
  induction s using detectLoop.induct B with
  | case1 p hp hs =>
    intro hge hmin
    have hpq : p = q := by
      by_contra hne
      have hlt' : p < q := lt_of_le_of_ne hge hne
      rw [hmin p le_rfl hlt'] at hs
      exact absurd hs (by simp)
    subst hpq
    rw [detectLoop.eq_def, dif_pos hp, if_pos hs]
    rfl
  | case2 p hp hs ih =>
    intro hge hmin
    have hne : p ≠ q := by
      intro he
      rw [he, hq] at hs
      exact hs rfl
    rw [detectLoop.eq_def, dif_pos hp, if_neg hs]
    exact ih (by omega) fun r hr hrq => hmin r (by omega) hrq
  | case3 p hp =>
    intro hge hmin
    exact absurd (show p < B.length - FRAME_HEADER_SIZE by omega) hp

/-- C4 amended: the detector returns Unknown/Unknown with the
"insufficient data" label for buffers of fewer than 4 bytes; it returns
Unknown/Unknown with the "no valid frame" label when no sync match exists at
any offset `q` (at or after the skipped tag) with `q < length - 4`, i.e. with
at least 5 bytes remaining; otherwise it decodes version and layer directly
from the header bits of the first such sync match, with no frame-length
validation.  (The claim as stated fails at the boundary: a sync match in the
last 4 bytes — e.g. a 4-byte buffer that is exactly a valid header — is never
examined, see the counterexample.) -/
theorem c4_detectTypeFromBuffer_spec :
    ∀ B : List Nat,
      (B.length < 4 →
        detectTypeFromBuffer B = ⟨.Unknown, .Unknown, "Invalid file: insufficient data"⟩) ∧
      (4 ≤ B.length →
        (∀ q, skipId3v2Tag B ≤ q → q < B.length - FRAME_HEADER_SIZE →
          isFrameSync B q = false) →
        detectTypeFromBuffer B = ⟨.Unknown, .Unknown, "No valid MP3 frame found"⟩) ∧
      (∀ q, 4 ≤ B.length → isFrameSync B q = true → q < B.length - FRAME_HEADER_SIZE →
        skipId3v2Tag B ≤ q → (∀ r, skipId3v2Tag B ≤ r → r < q → isFrameSync B r = false) →
        detectTypeFromBuffer B = detectDecode B q) := by
  intro B
  refine ⟨?_, ?_, ?_⟩
  · intro h
    unfold detectTypeFromBuffer
    rw [if_pos h]
  · intro hlen h
    unfold detectTypeFromBuffer
    rw [if_neg (by omega)]
    exact detectLoop_no_sync _ h
  · intro q hlen hq hqlt hge hmin
    unfold detectTypeFromBuffer
    rw [if_neg (by omega)]
    exact detectLoop_first_sync hq hqlt _ hge hmin

/-- C4 counterexample: the 4-byte buffer `FF FB 90 00` contains a sync-pattern
match at offset 0 (after the trivially skipped tag) whose header bits decode to
MPEG-1 Layer 3, yet the detector returns Unknown/Unknown, because its scan
requires at least 5 bytes past the match position. -/
theorem c4_counterexample :
    isFrameSync [0xff, 0xfb, 0x90, 0x00] 0 = true ∧
      skipId3v2Tag [0xff, 0xfb, 0x90, 0x00] = 0 ∧
      versionName ((bget [0xff, 0xfb, 0x90, 0x00] (0 + 1) >>> 3) &&& 0x03) = .MPEG1 ∧
      layerName ((bget [0xff, 0xfb, 0x90, 0x00] (0 + 1) >>> 1) &&& 0x03) = .Layer3 ∧
      detectTypeFromBuffer [0xff, 0xfb, 0x90, 0x00] =
        ⟨.Unknown, .Unknown, "No valid MP3 frame found"⟩ := by
  refine ⟨by decide, by decide, by decide, by decide, ?_⟩
  unfold detectTypeFromBuffer
  rw [if_neg (show ¬ List.length [0xff, 0xfb, 0x90, 0x00] < 4 by decide),
    show skipId3v2Tag [0xff, 0xfb, 0x90, 0x00] = 0 by decide,
    detectLoop.eq_def,
    dif_neg (show ¬ (0 < List.length [0xff, 0xfb, 0x90, 0x00] - FRAME_HEADER_SIZE) by decide)]

/-- C4 witness: a 3-byte buffer reports insufficient data; an all-zero 8-byte
buffer reports no valid frame; a buffer with garbage then a header at offset 2
decodes MPEG-1 Layer 3 from that first match. -/
theorem c4_witness :
    detectTypeFromBuffer [1, 2, 3] = ⟨.Unknown, .Unknown, "Invalid file: insufficient data"⟩ ∧
      detectTypeFromBuffer [0, 0, 0, 0, 0, 0, 0, 0] =
        ⟨.Unknown, .Unknown, "No valid MP3 frame found"⟩ ∧
      detectTypeFromBuffer ([0, 0] ++ hdr90 ++ [0]) = ⟨.MPEG1, .Layer3, "MPEG-1 Layer 3"⟩ := by
  refine ⟨?_, ?_, ?_⟩
  · exact (c4_detectTypeFromBuffer_spec [1, 2, 3]).1 (by decide)
  · refine (c4_detectTypeFromBuffer_spec [0, 0, 0, 0, 0, 0, 0, 0]).2.1 (by decide) ?_
    intro q hq hqlt
    simp only [FRAME_HEADER_SIZE, List.length_cons, List.length_nil] at hqlt
    interval_cases q <;> decide
  · have h := (c4_detectTypeFromBuffer_spec ([0, 0] ++ hdr90 ++ [0])).2.2 2 (by decide)
      (by decide) (by decide) (by decide) ?_
    · rw [h]
      decide
    · intro r hr hrq
      interval_cases r <;> decide

end Mp3

namespace Mp3


theorem findNextFrameAuxF_eq (B : List Nat) : ∀ p fuel, B.length - p ≤ fuel →
    findNextFrameAuxF fuel B p = findNextFrameAux B p := by
  intro p
  induction p using findNextFrameAux.induct B with
  | case1 x hx hs ih =>
    intro fuel hfuel
    cases fuel with
    | zero => exfalso; simp only [MIN_FRAME_SIZE] at hx; omega
    | succ n =>
      simp only [findNextFrameAuxF]
      rw [if_pos hx, if_pos hs]
      rw [findNextFrameAux.eq_def, dif_pos hx, if_pos hs]
      exact ih n (by omega)
  | case2 x hx hs hf ih =>
    intro fuel hfuel
    cases fuel with
    | zero => exfalso; simp only [MIN_FRAME_SIZE] at hx; omega
    | succ n =>
      simp only [findNextFrameAuxF]
      rw [if_pos hx, if_neg hs, if_pos hf]
      rw [findNextFrameAux.eq_def, dif_pos hx, if_neg hs, if_pos hf]
      exact ih n (by omega)
  | case3 x hx hs hf fl0 hfl ih =>
    intro fuel hfuel
    cases fuel with
    | zero => exfalso; simp only [MIN_FRAME_SIZE] at hx; omega
    | succ n =>
      simp only [findNextFrameAuxF]
      rw [if_pos hx, if_neg hs, if_neg hf, if_pos hfl]
      rw [findNextFrameAux.eq_def, dif_pos hx, if_neg hs, if_neg hf, if_pos hfl]
      exact ih n (by omega)
  | case4 x hx hs hf fl0 hfl hfit =>
    intro fuel hfuel
    cases fuel with
    | zero => exfalso; simp only [MIN_FRAME_SIZE] at hx; omega
    | succ n =>
      simp only [findNextFrameAuxF]
      rw [if_pos hx, if_neg hs, if_neg hf, if_neg hfl, if_pos hfit]
      rw [findNextFrameAux.eq_def, dif_pos hx, if_neg hs, if_neg hf, if_neg hfl, if_pos hfit]
  | case5 x hx hs hf fl0 hfl hfit =>
    intro fuel hfuel
    cases fuel with
    | zero => exfalso; simp only [MIN_FRAME_SIZE] at hx; omega
    | succ n =>
      simp only [findNextFrameAuxF]
      rw [if_pos hx, if_neg hs, if_neg hf, if_neg hfl, if_neg hfit]
      rw [findNextFrameAux.eq_def, dif_pos hx, if_neg hs, if_neg hf, if_neg hfl, if_neg hfit]
  | case6 x hx =>
    intro fuel hfuel
    rw [findNextFrameAux.eq_def, dif_neg hx]
    cases fuel with
    | zero => rfl
    | succ n => simp only [findNextFrameAuxF]; rw [if_neg hx]

/- Scan-step lemmas: the reference scan over an extended buffer takes the same
step as the iterator takes over the current window, since every decision at a
scannable position reads only bytes that are already present. -/

theorem scanFrames_stop (B : List Nat) (p : Nat) (hp : ¬ p < B.length - MIN_FRAME_SIZE) :
    scanFrames B p = [] := by
  rw [scanFrames.eq_def, dif_neg hp]

theorem scanFrames_step_not_sync {A E : List Nat} {p : Nat}
    (hp : p < A.length - MIN_FRAME_SIZE) (hs : isFrameSync A p = false) :
    scanFrames (A ++ E) p = scanFrames (A ++ E) (p + 1) := by
  have h4 : p + 4 ≤ A.length := by simp only [MIN_FRAME_SIZE] at hp; omega
  have hpE : p < (A ++ E).length - MIN_FRAME_SIZE := by
    simp only [MIN_FRAME_SIZE, List.length_append] at *
    omega
  rw [scanFrames.eq_def, dif_pos hpE,
    dif_pos (show ¬ isFrameSync (A ++ E) p = true by
      rw [isFrameSync_append (by omega)]; simp [hs])]

theorem scanFrames_step_not_format {A E : List Nat} {p : Nat}
    (hp : p < A.length - MIN_FRAME_SIZE) (hs : isFrameSync A p = true)
    (hf : isFormatSpecificFrame A p = false) :
    scanFrames (A ++ E) p = scanFrames (A ++ E) (p + 1) := by
  have h4 : p + 4 ≤ A.length := by simp only [MIN_FRAME_SIZE] at hp; omega
  have hpE : p < (A ++ E).length - MIN_FRAME_SIZE := by
    simp only [MIN_FRAME_SIZE, List.length_append] at *
    omega
  rw [scanFrames.eq_def, dif_pos hpE,
    dif_neg (show ¬ ¬ isFrameSync (A ++ E) p = true by
      rw [isFrameSync_append (by omega)]; simp [hs]),
    dif_pos (show ¬ isFormatSpecificFrame (A ++ E) p = true by
      rw [isFormatSpecificFrame_append h4]; simp [hf])]

theorem scanFrames_step_zero_len {A E : List Nat} {p : Nat}
    (hp : p < A.length - MIN_FRAME_SIZE) (hs : isFrameSync A p = true)
    (hf : isFormatSpecificFrame A p = true)
    (hfl : calculateFrameLength ((A.drop p).take FRAME_HEADER_SIZE) = 0) :
    scanFrames (A ++ E) p = scanFrames (A ++ E) (p + 1) := by
  have h4 : p + 4 ≤ A.length := by simp only [MIN_FRAME_SIZE] at hp; omega
  have hpE : p < (A ++ E).length - MIN_FRAME_SIZE := by
    simp only [MIN_FRAME_SIZE, List.length_append] at *
    omega
  rw [scanFrames.eq_def, dif_pos hpE,
    dif_neg (show ¬ ¬ isFrameSync (A ++ E) p = true by
      rw [isFrameSync_append (by omega)]; simp [hs]),
    dif_neg (show ¬ ¬ isFormatSpecificFrame (A ++ E) p = true by
      rw [isFormatSpecificFrame_append h4]; simp [hf]),
    dif_pos (show calculateFrameLength (((A ++ E).drop p).take FRAME_HEADER_SIZE) = 0 by
      rw [headerBytes_append h4]; exact hfl)]

theorem scanFrames_step_frame {A E : List Nat} {p fl : Nat}
    (hp : p < A.length - MIN_FRAME_SIZE) (hs : isFrameSync A p = true)
    (hf : isFormatSpecificFrame A p = true)
    (hfl : calculateFrameLength ((A.drop p).take FRAME_HEADER_SIZE) = fl)
    (h0 : fl ≠ 0) (hfit : p + fl ≤ A.length) :
    scanFrames (A ++ E) p = (p, fl) :: scanFrames (A ++ E) (p + fl) := by
  have h4 : p + 4 ≤ A.length := by simp only [MIN_FRAME_SIZE] at hp; omega
  have hpE : p < (A ++ E).length - MIN_FRAME_SIZE := by
    simp only [MIN_FRAME_SIZE, List.length_append] at *
    omega
  have hflE : calculateFrameLength (((A ++ E).drop p).take FRAME_HEADER_SIZE) = fl := by
    rw [headerBytes_append h4]; exact hfl
  rw [scanFrames.eq_def, dif_pos hpE,
    dif_neg (show ¬ ¬ isFrameSync (A ++ E) p = true by
      rw [isFrameSync_append (by omega)]; simp [hs]),
    dif_neg (show ¬ ¬ isFormatSpecificFrame (A ++ E) p = true by
      rw [isFormatSpecificFrame_append h4]; simp [hf])]
  rw [dif_neg (show ¬ calculateFrameLength (((A ++ E).drop p).take FRAME_HEADER_SIZE) = 0 by
      rw [hflE]; exact h0),
    dif_neg (show ¬ p + calculateFrameLength (((A ++ E).drop p).take FRAME_HEADER_SIZE) >
        (A ++ E).length by
      rw [hflE]; simp only [List.length_append]; omega)]
  rw [hflE]

/-- Positions skipped by a null `findNextFrame` scan stay dead under any future
buffer extension: the reference scan from the original cursor equals the one
from the advanced cursor. -/
theorem scanFrames_of_aux_none {B : List Nat} : ∀ p p',
    findNextFrameAux B p = (none, p') →
    ∀ E, scanFrames (B ++ E) p = scanFrames (B ++ E) p' := by
  intro p
  induction p using findNextFrameAux.induct B with
  | case1 x hx hs ih =>
    intro p' h E
    rw [findNextFrameAux.eq_def, dif_pos hx, if_pos hs] at h
    rw [scanFrames_step_not_sync hx (by simpa using hs)]
    exact ih p' h E
  | case2 x hx hs hf ih =>
    intro p' h E
    rw [findNextFrameAux.eq_def, dif_pos hx, if_neg hs, if_pos hf] at h
    rw [scanFrames_step_not_format hx (by simpa using hs) (by simpa using hf)]
    exact ih p' h E
  | case3 x hx hs hf fl0 hfl ih =>
    intro p' h E
    rw [findNextFrameAux.eq_def, dif_pos hx, if_neg hs, if_neg hf, if_pos hfl] at h
    rw [scanFrames_step_zero_len hx (by simpa using hs) (by simpa using hf) hfl]
    exact ih p' h E
  | case4 x hx hs hf fl0 hfl hfit =>
    intro p' h E
    rw [findNextFrameAux.eq_def, dif_pos hx, if_neg hs, if_neg hf, if_neg hfl,
      if_pos hfit] at h
    injection h with h1 h2
    subst h2
    rfl
  | case5 x hx hs hf fl0 hfl hfit =>
    intro p' h E
    rw [findNextFrameAux.eq_def, dif_pos hx, if_neg hs, if_neg hf, if_neg hfl,
      if_neg hfit] at h
    exact absurd h (by simp)
  | case6 x hx =>
    intro p' h E
    rw [findNextFrameAux.eq_def, dif_neg hx] at h
    injection h with h1 h2
    subst h2
    rfl

end Mp3

namespace Mp3

/-- C7: while a `next()` call is pending (so no complete frame is available in
the buffered bytes and the source has not ended — the only states in which a
registered pending continuation survives), a second synchronous `next()` entry
is rejected with the concurrency-misuse error rather than queued, and the
iterator state is not corrupted: the buffer, the pending continuation and the
end flag are untouched, and the cursor has only moved over permanently dead
bytes, so the frames produced from any future buffered extension are exactly
those that would have been produced from the original cursor. -/
theorem c7_concurrent_next_rejected :
    ∀ s : IterState, s.streamError = false → s.pending = true → s.isEnded = false →
      (findNextFrameAux s.buffer s.pos).1 = none →
      nextCall s = (.concurrentReject, { s with pos := (findNextFrameAux s.buffer s.pos).2 }) ∧
      ((nextCall s).2.buffer = s.buffer ∧ (nextCall s).2.pending = true ∧
        (nextCall s).2.isEnded = false) ∧
      (∀ E, scanFrames (s.buffer ++ E) ((nextCall s).2.pos) =
        scanFrames (s.buffer ++ E) s.pos) := by
  intro s herr hpend hend hnone
  have hpair : findNextFrameAux s.buffer s.pos = (none, (findNextFrameAux s.buffer s.pos).2) := by
    rcases hsplit : findNextFrameAux s.buffer s.pos with ⟨o, q⟩
    rw [hsplit] at hnone
    simp only at hnone
    rw [hnone]
  have hcall : nextCall s =
      (.concurrentReject, { s with pos := (findNextFrameAux s.buffer s.pos).2 }) := by
    unfold nextCall
    rw [if_neg (by simp [herr]), hpair]
    simp only
    rw [if_neg (by simp [hend]), if_pos hpend]
  refine ⟨hcall, ?_, ?_⟩
  · rw [hcall]
    exact ⟨rfl, hpend, hend⟩
  · intro E
    rw [hcall]
    exact (scanFrames_of_aux_none s.pos _ hpair E).symm

set_option maxRecDepth 4000 in
/-- C7 witness: a pending iterator over 6 garbage bytes rejects a second
`next()` with state preserved, and the advanced cursor changes no future
frame: scanning the extended buffer from cursor 2 equals scanning from 0. -/
theorem c7_witness :
    nextCall ⟨[0, 1, 2, 3, 4, 5], 0, false, true, false⟩ =
      (.concurrentReject, ⟨[0, 1, 2, 3, 4, 5], 2, false, true, false⟩) ∧
      scanFrames ([0, 1, 2, 3, 4, 5] ++ [0xff]) 2 = scanFrames ([0, 1, 2, 3, 4, 5] ++ [0xff]) 0 := by
  have ha : findNextFrameAux [0, 1, 2, 3, 4, 5] 0 = (none, 2) := by
    rw [← findNextFrameAuxF_eq [0, 1, 2, 3, 4, 5] 0 6 (by decide)]
    decide
  have h := c7_concurrent_next_rejected ⟨[0, 1, 2, 3, 4, 5], 0, false, true, false⟩
    rfl rfl rfl (by rw [ha])
  constructor
  · have h1 := h.1
    rw [ha] at h1
    exact h1
  · have h2 := h.2.2 [0xff]
    rw [h.1, ha] at h2
    exact h2

end Mp3

namespace Mp3


theorem runScanF_mono : ∀ f1 f2 B p acc, B.length - p ≤ f1 → B.length - p ≤ f2 →
    runScanF f1 B p acc = runScanF f2 B p acc := by
  intro f1
  induction f1 with
  | zero =>
    intro f2 B p acc h1 h2
    cases f2 with
    | zero => rfl
    | succ m =>
      simp only [runScanF]
      rw [if_neg (by simp only [MIN_FRAME_SIZE]; omega)]
  | succ n ih =>
    intro f2 B p acc h1 h2
    cases f2 with
    | zero =>
      simp only [runScanF]
      rw [if_neg (by simp only [MIN_FRAME_SIZE]; omega)]
    | succ m =>
      simp only [runScanF]
      by_cases hp : p < B.length - MIN_FRAME_SIZE
      · rw [if_pos hp, if_pos hp]
        have hplen : p + 4 < B.length := by simp only [MIN_FRAME_SIZE] at hp; omega
        by_cases hs : ¬ isFrameSync B p = true
        · rw [if_pos hs, if_pos hs]
          exact ih m B (p + 1) acc (by omega) (by omega)
        · rw [if_neg hs, if_neg hs]
          by_cases hf : ¬ isFormatSpecificFrame B p = true
          · rw [if_pos hf, if_pos hf]
            exact ih m B (p + 1) acc (by omega) (by omega)
          · rw [if_neg hf, if_neg hf]
            by_cases hfl : calculateFrameLength ((B.drop p).take FRAME_HEADER_SIZE) = 0
            · rw [if_pos hfl, if_pos hfl]
              exact ih m B (p + 1) acc (by omega) (by omega)
            · rw [if_neg hfl, if_neg hfl]
              by_cases hfit :
                  p + calculateFrameLength ((B.drop p).take FRAME_HEADER_SIZE) > B.length
              · rw [if_pos hfit, if_pos hfit]
              · rw [if_neg hfit, if_neg hfit]
                exact ih m B _ _ (by omega) (by omega)
      · rw [if_neg hp, if_neg hp]

theorem runScanF_dead_step {B : List Nat} {p : Nat} (hp : p < B.length - MIN_FRAME_SIZE)
    (hdead : ¬ isFrameSync B p = true ∨
      (isFrameSync B p = true ∧ ¬ isFormatSpecificFrame B p = true) ∨
      (isFrameSync B p = true ∧ isFormatSpecificFrame B p = true ∧
        calculateFrameLength ((B.drop p).take FRAME_HEADER_SIZE) = 0)) :
    ∀ fuel acc, B.length - p ≤ fuel → runScanF fuel B p acc = runScanF fuel B (p + 1) acc := by
  intro fuel acc hfuel
  cases fuel with
  | zero => exfalso; simp only [MIN_FRAME_SIZE] at hp; omega
  | succ n =>
    have hnext : B.length - (p + 1) ≤ n := by omega
    have hmono := runScanF_mono n (n + 1) B (p + 1) acc hnext (by omega)
    simp only [runScanF]
    rw [if_pos hp]
    rcases hdead with hs | ⟨hs, hf⟩ | ⟨hs, hf, hfl⟩
    · rw [if_pos hs]
      exact hmono
    · rw [if_neg (not_not_intro hs), if_pos hf]
      exact hmono
    · rw [if_neg (not_not_intro hs), if_neg (not_not_intro hf), if_pos hfl]
      exact hmono

theorem runScanF_frame_step {B : List Nat} {p : Nat} (hp : p < B.length - MIN_FRAME_SIZE)
    (hs : isFrameSync B p = true) (hf : isFormatSpecificFrame B p = true)
    (hfl : calculateFrameLength ((B.drop p).take FRAME_HEADER_SIZE) ≠ 0)
    (hfit : p + calculateFrameLength ((B.drop p).take FRAME_HEADER_SIZE) ≤ B.length) :
    ∀ fuel acc, B.length - p ≤ fuel →
      runScanF fuel B p acc =
        runScanF fuel B (p + calculateFrameLength ((B.drop p).take FRAME_HEADER_SIZE))
          (if isHeaderFrame B p then acc else acc + 1) := by
  intro fuel acc hfuel
  cases fuel with
  | zero => exfalso; simp only [MIN_FRAME_SIZE] at hp; omega
  | succ n =>
    simp only [runScanF]
    rw [if_pos hp, if_neg (not_not_intro hs), if_neg (not_not_intro hf), if_neg hfl,
      if_neg (by omega)]
    exact runScanF_mono n (n + 1) B _ _ (by omega) (by omega)

theorem runScanF_stall_wait {B : List Nat} {p : Nat} (hp : p < B.length - MIN_FRAME_SIZE)
    (hs : isFrameSync B p = true) (hf : isFormatSpecificFrame B p = true)
    (hfl : calculateFrameLength ((B.drop p).take FRAME_HEADER_SIZE) ≠ 0)
    (hfit : p + calculateFrameLength ((B.drop p).take FRAME_HEADER_SIZE) > B.length) :
    ∀ fuel acc, runScanF fuel B p acc = (p, acc) := by
  intro fuel acc
  cases fuel with
  | zero => rfl
  | succ n =>
    simp only [runScanF]
    rw [if_pos hp, if_neg (not_not_intro hs), if_neg (not_not_intro hf), if_neg hfl,
      if_pos hfit]

theorem runScanF_stall_out {B : List Nat} {p : Nat} (hp : ¬ p < B.length - MIN_FRAME_SIZE) :
    ∀ fuel acc, runScanF fuel B p acc = (p, acc) := by
  intro fuel acc
  cases fuel with
  | zero => rfl
  | succ n =>
    simp only [runScanF]
    rw [if_neg hp]

theorem runCountF_congr {B : List Nat} {p q acc acc2 : Nat} {sk : Bool}
    {chunks : List (List Nat)}
    (h : runScanF B.length B p acc = runScanF B.length B q acc2) :
    runCountF chunks B p sk acc = runCountF chunks B q sk acc2 := by
  cases chunks <;> simp only [runCountF] <;> rw [h]

theorem runCountF_eq :
    ∀ (B : List Nat) (p : Nat) (sk : Bool) (chunks : List (List Nat)) (acc : Nat),
      runCountF chunks B p sk acc = runCount B p sk chunks acc := by
  intro B p sk chunks acc
  induction B, p, sk, chunks, acc using runCount.induct with
  | case1 B p sk chunks acc hp hs ih =>
    rw [runCount.eq_def, dif_pos hp, dif_pos hs, ← ih]
    exact runCountF_congr (runScanF_dead_step hp (Or.inl hs) B.length acc (Nat.sub_le _ _))
  | case2 B p sk chunks acc hp hs hf ih =>
    rw [runCount.eq_def, dif_pos hp, dif_neg hs, dif_pos hf, ← ih]
    exact runCountF_congr
      (runScanF_dead_step hp (Or.inr (Or.inl ⟨by simpa using hs, hf⟩)) B.length acc
        (Nat.sub_le _ _))
  | case3 B p sk chunks acc hp hs hf hfl ih =>
    rw [runCount.eq_def, dif_pos hp, dif_neg hs, dif_neg hf, dif_pos hfl, ← ih]
    exact runCountF_congr
      (runScanF_dead_step hp
        (Or.inr (Or.inr ⟨by simpa using hs, by simpa using hf, hfl⟩)) B.length acc
        (Nat.sub_le _ _))
  | case4 B p sk acc hp hs hf hfl hfit =>
    rw [runCount.eq_def, dif_pos hp, dif_neg hs, dif_neg hf, dif_neg hfl, dif_pos hfit]
    simp only [runCountF]
    rw [runScanF_stall_wait hp (by simpa using hs) (by simpa using hf) hfl hfit]
  | case5 B p sk acc hp hs hf hfl hfit c rest ih =>
    rw [runCount.eq_def, dif_pos hp, dif_neg hs, dif_neg hf, dif_neg hfl, dif_pos hfit]
    simp only [runCountF]
    rw [runScanF_stall_wait hp (by simpa using hs) (by simpa using hf) hfl hfit]
    exact ih
  | case6 B p sk chunks acc hp hs hf hfl hfit ih =>
    simp only [dite_eq_ite] at ih
    rw [runCount.eq_def, dif_pos hp, dif_neg hs, dif_neg hf, dif_neg hfl, dif_neg hfit, ← ih]
    exact runCountF_congr
      (runScanF_frame_step hp (by simpa using hs) (by simpa using hf) hfl (by omega)
        B.length acc (Nat.sub_le _ _))
  | case7 B p sk acc hp =>
    rw [runCount.eq_def, dif_neg hp]
    simp only [runCountF]
    rw [runScanF_stall_out hp]
  | case8 B p sk acc hp c rest ih =>
    rw [runCount.eq_def, dif_neg hp]
    simp only [runCountF]
    rw [runScanF_stall_out hp]
    exact ih

end Mp3

namespace Mp3

theorem scanFrames_wait {B : List Nat} {p : Nat} (hp : p < B.length - MIN_FRAME_SIZE)
    (hs : isFrameSync B p = true) (hf : isFormatSpecificFrame B p = true)
    (hfl : ¬ calculateFrameLength ((B.drop p).take FRAME_HEADER_SIZE) = 0)
    (hfit : p + calculateFrameLength ((B.drop p).take FRAME_HEADER_SIZE) > B.length) :
    scanFrames B p = [] := by
  rw [scanFrames.eq_def, dif_pos hp, dif_neg (not_not_intro hs), dif_neg (not_not_intro hf),
    dif_neg hfl, dif_pos hfit]

/-- The heart of chunk-boundary independence: as long as the metadata-tag skip
is a no-op in every delivery (the concatenated stream does not begin with the
ID3 magic, or the tag has already been consulted), the chunked run counts
exactly the audio frames of the reference scan over the full byte stream. -/
theorem runCount_eq_countScan :
    ∀ (B : List Nat) (p : Nat) (sk : Bool) (chunks : List (List Nat)) (acc : Nat),
      (sk = true ∨ hasId3Magic (B ++ chunks.flatten) = false) →
      runCount B p sk chunks acc = acc + countScan (B ++ chunks.flatten) p := by
  intro B p sk chunks acc
  induction B, p, sk, chunks, acc using runCount.induct with
  | case1 B p sk chunks acc hp hs ih =>
    intro hyp
    rw [runCount.eq_def, dif_pos hp, dif_pos hs, ih hyp]
    unfold countScan
    rw [scanFrames_step_not_sync hp (by simpa using hs)]
  | case2 B p sk chunks acc hp hs hf ih =>
    intro hyp
    rw [runCount.eq_def, dif_pos hp, dif_neg hs, dif_pos hf, ih hyp]
    unfold countScan
    rw [scanFrames_step_not_format hp (by simpa using hs) (by simpa using hf)]
  | case3 B p sk chunks acc hp hs hf hfl ih =>
    intro hyp
    rw [runCount.eq_def, dif_pos hp, dif_neg hs, dif_neg hf, dif_pos hfl, ih hyp]
    unfold countScan
    rw [scanFrames_step_zero_len hp (by simpa using hs) (by simpa using hf) hfl]
  | case4 B p sk acc hp hs hf hfl hfit =>
    intro hyp
    rw [runCount.eq_def, dif_pos hp, dif_neg hs, dif_neg hf, dif_neg hfl, dif_pos hfit]
    unfold countScan
    have hnil : scanFrames (B ++ List.flatten ([] : List (List Nat))) p = [] := by
      simp only [List.flatten_nil, List.append_nil]
      exact scanFrames_wait hp (by simpa using hs) (by simpa using hf) hfl hfit
    rw [hnil]
    simp
  | case5 B p sk acc hp hs hf hfl hfit c rest ih =>
    intro hyp
    rw [runCount.eq_def, dif_pos hp, dif_neg hs, dif_neg hf, dif_neg hfl, dif_pos hfit]
    dsimp only
    have hassoc : B ++ (c :: rest).flatten = (B ++ c) ++ rest.flatten := by
      simp [List.flatten_cons, List.append_assoc]
    by_cases hsk : sk = false ∧ ID3V2_HEADER_SIZE ≤ (B ++ c).length
    · have hmagic : hasId3Magic (B ++ c) = false := by
        rcases hyp with h1 | h2
        · exact absurd h1 (by simp [hsk.1])
        · rw [hassoc] at h2
          rw [← hasId3Magic_append
            (show 3 ≤ (B ++ c).length by
              have := hsk.2
              simp only [ID3V2_HEADER_SIZE] at this
              omega)]
          exact h2
      have ht : skipId3v2Tag (B ++ c) = 0 := skipId3v2Tag_eq_zero hmagic
      have hpa : processArrival B p sk c = (B ++ c, p, true) := by
        unfold processArrival
        rw [if_pos hsk, if_neg (by omega)]
      rw [hpa]
      have := ih
      rw [hpa] at this
      rw [this (Or.inl rfl), hassoc]
    · have hpa : processArrival B p sk c = (B ++ c, p, sk) := by
        unfold processArrival
        rw [if_neg hsk]
      rw [hpa]
      have := ih
      rw [hpa] at this
      refine (this ?_).trans (by rw [hassoc])
      rcases hyp with h1 | h2
      · exact Or.inl h1
      · refine Or.inr ?_
        rw [hassoc] at h2
        exact h2
  | case6 B p sk chunks acc hp hs hf hfl hfit ih =>
    intro hyp
    have hsy : isFrameSync B p = true := by simpa using hs
    have hfo : isFormatSpecificFrame B p = true := by simpa using hf
    have h4 : p + 4 ≤ B.length := (format_extract hfo).1
    have hfl96 : 96 ≤ calculateFrameLength ((B.drop p).take FRAME_HEADER_SIZE) := by
      rw [calculateFrameLength_slice h4]
      exact (format_calcCore_bounds hfo).1
    have hhdr : isHeaderFrame (B ++ chunks.flatten) p = isHeaderFrame B p :=
      isHeaderFrame_append (by omega)
    simp only [dite_eq_ite] at ih
    rw [runCount.eq_def, dif_pos hp, dif_neg hs, dif_neg hf, dif_neg hfl, dif_neg hfit,
      ih hyp]
    unfold countScan
    rw [scanFrames_step_frame hp hsy hfo rfl hfl (by omega)]
    simp only [List.filter_cons, hhdr]
    by_cases hh : isHeaderFrame B p = true
    · rw [if_pos hh, hh]
      simp
    · have hh2 : isHeaderFrame B p = false := by simpa using hh
      rw [if_neg hh, hh2]
      simp only [Bool.not_false, if_true, List.length_cons]
      omega
  | case7 B p sk acc hp =>
    intro hyp
    rw [runCount.eq_def, dif_neg hp]
    unfold countScan
    have hstop : scanFrames (B ++ List.flatten ([] : List (List Nat))) p = [] := by
      simp only [List.flatten_nil, List.append_nil]
      exact scanFrames_stop B p hp
    rw [hstop]
    simp
  | case8 B p sk acc hp c rest ih =>
    intro hyp
    rw [runCount.eq_def, dif_neg hp]
    dsimp only
    have hassoc : B ++ (c :: rest).flatten = (B ++ c) ++ rest.flatten := by
      simp [List.flatten_cons, List.append_assoc]
    by_cases hsk : sk = false ∧ ID3V2_HEADER_SIZE ≤ (B ++ c).length
    · have hmagic : hasId3Magic (B ++ c) = false := by
        rcases hyp with h1 | h2
        · exact absurd h1 (by simp [hsk.1])
        · rw [hassoc] at h2
          rw [← hasId3Magic_append
            (show 3 ≤ (B ++ c).length by
              have := hsk.2
              simp only [ID3V2_HEADER_SIZE] at this
              omega)]
          exact h2
      have ht : skipId3v2Tag (B ++ c) = 0 := skipId3v2Tag_eq_zero hmagic
      have hpa : processArrival B p sk c = (B ++ c, p, true) := by
        unfold processArrival
        rw [if_pos hsk, if_neg (by omega)]
      rw [hpa]
      have := ih
      rw [hpa] at this
      rw [this (Or.inl rfl), hassoc]
    · have hpa : processArrival B p sk c = (B ++ c, p, sk) := by
        unfold processArrival
        rw [if_neg hsk]
      rw [hpa]
      have := ih
      rw [hpa] at this
      refine (this ?_).trans (by rw [hassoc])
      rcases hyp with h1 | h2
      · exact Or.inl h1
      · refine Or.inr ?_
        rw [hassoc] at h2
        exact h2

end Mp3

namespace Mp3

/-- C2 amended: chunk-boundary independence holds for every byte stream that
does not begin with the 3-byte ID3v2 magic: for any split of such a buffer into
contiguous non-empty chunks, counting frames over the chunked stream equals
counting over the buffer delivered as one chunk.  (For streams beginning with
an ID3v2 tag the property fails — see the counterexample — because a chunk
boundary inside the tag header makes the iterator mark the tag as consulted
without skipping it.) -/
theorem c2_chunk_boundary_independence :
    ∀ (B : List Nat) (chunks : List (List Nat)),
      chunks.flatten = B → (∀ c ∈ chunks, c ≠ []) → hasId3Magic B = false →
      iterCountFrames chunks = iterCountFrames [B] := by
  intro B chunks hflat hne hmag
  unfold iterCountFrames
  have h1 : runCount [] 0 false chunks 0 = 0 + countScan ([] ++ chunks.flatten) 0 :=
    runCount_eq_countScan [] 0 false chunks 0 (Or.inr (by simpa [hflat] using hmag))
  have h2 : runCount [] 0 false [B] 0 = 0 + countScan ([] ++ [B].flatten) 0 :=
    runCount_eq_countScan [] 0 false [B] 0
      (Or.inr (by simpa using hmag))
  rw [h1, h2]
  simp only [List.nil_append, List.flatten_cons, List.flatten_nil, List.append_nil, hflat]

/-- C2 witness: a 10-byte sync-free buffer split in two counts the same as
delivered whole (both runs find no frames and report the same failure). -/
theorem c2_witness :
    iterCountFrames [[0, 1, 2, 3, 4], [5, 6, 7, 8, 9]] =
      iterCountFrames [[0, 1, 2, 3, 4, 5, 6, 7, 8, 9]] :=
  c2_chunk_boundary_independence [0, 1, 2, 3, 4, 5, 6, 7, 8, 9]
    [[0, 1, 2, 3, 4], [5, 6, 7, 8, 9]] (by decide) (by decide) (by decide)

set_option maxRecDepth 1000000 in
set_option maxHeartbeats 1000000 in
/-- C2 counterexample: an 852-byte stream — a 10-byte ID3v2 header declaring a
421-byte tag whose body is frame-shaped, followed by one real frame — split
after the 10th byte counts 2 frames, while the same bytes delivered as one
chunk count 1: with the split, the iterator consults the incomplete tag, marks
it consulted without skipping, and later counts the frame inside the tag body;
delivered whole, the tag (and the frame-shaped block inside it) is skipped. -/
theorem c2_counterexample :
    List.flatten [List.take 10 id3ChunkBuffer, List.drop 10 id3ChunkBuffer] = id3ChunkBuffer ∧
      (∀ c ∈ [List.take 10 id3ChunkBuffer, List.drop 10 id3ChunkBuffer], c ≠ []) ∧
      iterCountFrames [List.take 10 id3ChunkBuffer, List.drop 10 id3ChunkBuffer] = .ok 2 ∧
      iterCountFrames [id3ChunkBuffer] = .ok 1 := by
  refine ⟨by decide, by decide, ?_, ?_⟩
  · unfold iterCountFrames
    rw [← runCountF_eq]
    decide
  · unfold iterCountFrames
    rw [← runCountF_eq]
    decide

end Mp3
